import Mathlib

/-!
Shallow embedding of the gasometer-dashboard core (src/main.go): the
TTL dashboard cache, the retrying season fetcher, the season
aggregation pipeline (sort, elapsed days, trend, 7-day moving
average), ordinary least squares regression, scenario projection and
the KPI summary, plus a transition system for the single-flight build
gate of handleAPI.

Modelling conventions: Go float64 arithmetic is carried out over the
exact rationals; instants are rationals measured in hours, so one
calendar day is 24 and the Go expression date.Sub(start).Hours()/24
becomes (date - start) / 24; the Go conversion int(x) is truncation
toward zero, embedded as ratTruncInt; the wall clock of the cache is
an integer; network effects are abstracted as oracle functions and
sleep calls are logged into an explicit trace.
-/

namespace Gasometer

/-- Configuration constants of src/main.go: the critical threshold in
percent, the regression window in records, the stress multiplier, the
retry ceiling and the base retry delay in seconds. -/
def criticalThreshold : ℚ := 10

def trendWindow : ℕ := 14

def stressMultiplier : ℚ := 125 / 100

def retryAttempts : ℕ := 3

def retryDelay : ℕ := 2

/-- Truncation toward zero of a rational, the semantics of the Go
conversion int(x) applied to a float64: floor for nonnegative values
and ceiling for negative ones. -/
def ratTruncInt (q : ℚ) : ℤ := if 0 ≤ q then ⌊q⌋ else ⌈q⌉

/-- The Cache type of src/main.go, holding an optional stored result,
the instant it was stored, and the time to live. The mutex fields
only serialize access and carry no data; they are modelled by the
transition system further below. -/
structure Cache (D : Type) where
  data : Option D
  lastFetched : ℤ
  ttl : ℤ
deriving DecidableEq

/-- Method Get of Cache: return the data only when present and
strictly younger than ttl, else nil. -/
def Cache.get {D : Type} (c : Cache D) (now : ℤ) : Option D :=
  if c.data.isSome ∧ now - c.lastFetched < c.ttl then c.data else none

/-- Method Set of Cache: replace the data and reset the freshness
clock to the current instant. -/
def Cache.set {D : Type} (c : Cache D) (v : D) (now : ℤ) : Cache D :=
  { data := some v, lastFetched := now, ttl := c.ttl }

/-- Method Clear of Cache: drop the data. -/
def Cache.clear {D : Type} (c : Cache D) : Cache D :=
  { c with data := none }

/-- Outcome of fetchSeasonWithRetry: the final result (the error case
carries the attempt ceiling, the season start year and the last
underlying cause, mirroring the wrapped error string), the number of
upstream calls issued, and the sequence of sleep durations in
seconds. -/
structure RetryOutcome (E R : Type) where
  result : Except (ℕ × ℤ × Option E) R
  calls : ℕ
  sleeps : List ℕ

/-- Loop body of fetchSeasonWithRetry. The fuel argument counts the
attempts still allowed (fuel + attempt = retryAttempts + 1 at every
call), fetch is the oracle giving the outcome of fetchSeason on each
attempt number, and the third argument is the running lastErr. -/
def retryAux {E R : Type} (startYear : ℤ) (fetch : ℕ → Except E R) :
    ℕ → ℕ → Option E → RetryOutcome E R
  | 0, _, lastErr => ⟨.error (retryAttempts, startYear, lastErr), 0, []⟩
  | fuel + 1, attempt, _ =>
    match fetch attempt with
    | .ok recs => ⟨.ok recs, 1, []⟩
    | .error e =>
      let rest := retryAux startYear fetch fuel (attempt + 1) (some e)
      ⟨rest.result, rest.calls + 1,
        if attempt < retryAttempts then retryDelay * attempt :: rest.sleeps
        else rest.sleeps⟩

/-- The function fetchSeasonWithRetry of src/main.go, starting at
attempt 1 with nil lastErr. -/
def fetchSeasonWithRetry {E R : Type} (startYear : ℤ) (fetch : ℕ → Except E R) :
    RetryOutcome E R :=
  retryAux startYear fetch retryAttempts 1 none

/-- C1: Cache contract. Get returns the stored result iff a result is
present and its age is strictly below the ttl, and signals a miss
otherwise; Set replaces the stored result and resets the freshness
clock; Clear forces the empty state; two Gets within the ttl window
after one Set return the same data; a Get after the ttl elapsed with
no intervening Set returns a miss. -/
theorem cache_contract {D : Type} (c : Cache D) (now t0 t1 t2 : ℤ) (v : D) :
    (∀ w, c.get now = some w ↔ (c.data = some w ∧ now - c.lastFetched < c.ttl)) ∧
    (c.get now = none ↔ ¬ (c.data ≠ none ∧ now - c.lastFetched < c.ttl)) ∧
    ((c.set v t0).data = some v ∧ (c.set v t0).lastFetched = t0) ∧
    ((c.clear).data = none ∧ ∀ t, (c.clear).get t = none) ∧
    (t1 - t0 < c.ttl → t2 - t0 < c.ttl →
      (c.set v t0).get t1 = some v ∧ (c.set v t0).get t2 = some v) ∧
    (c.ttl ≤ t1 - t0 → (c.set v t0).get t1 = none) := by
  refine ⟨?_, ?_, ⟨rfl, rfl⟩, ⟨rfl, ?_⟩, ?_, ?_⟩
  · intro w
    rw [Cache.get]
    split_ifs with h
    · exact (and_iff_left h.2).symm
    · constructor
      · rintro ⟨⟩
      · rintro ⟨h1, h2⟩
        exact absurd ⟨by simp [h1], h2⟩ h
  · rw [Cache.get]
    split_ifs with h
    · have hne := Option.isSome_iff_ne_none.mp h.1
      simp [hne, h.2]
    · simp only [Option.isSome_iff_ne_none] at h
      simp [h]
  · intro t
    simp [Cache.get, Cache.clear]
  · intro h1 h2
    constructor
    · simp [Cache.get, Cache.set, h1]
    · simp [Cache.get, Cache.set, h2]
  · intro h
    simp [Cache.get, Cache.set, not_lt.mpr h]

/-- Witness for C1 at a concrete cache, value and instants. -/
theorem cache_contract_witness :
    ((Cache.mk (some 5) 0 10).set 3 0).get 9 = some 3 ∧
    ((Cache.mk (some 5) 0 10).set 3 0).get 10 = none := by
  have h1 := cache_contract (Cache.mk (some 5) 0 10) 0 0 9 9 3
  have h2 := cache_contract (Cache.mk (some 5) 0 10) 0 0 10 10 3
  exact ⟨(h1.2.2.2.2.1 (by decide) (by decide)).1, h2.2.2.2.2.2 (by decide)⟩

/-- C9: contract of the retrying fetcher. At most retryAttempts
upstream calls are issued; when attempt k is the first success the
records of that attempt are returned after exactly k calls with
sleeps base times 1 up to base times k minus 1 between consecutive
attempts and none after the last; when all three attempts fail the
result is a wrapped failure carrying the season start year and the
last underlying cause, after sleeps of base times 1 and base times 2
seconds. -/
theorem fetchSeasonWithRetry_contract {E R : Type} (startYear : ℤ)
    (fetch : ℕ → Except E R) :
    (fetchSeasonWithRetry startYear fetch).calls ≤ retryAttempts ∧
    (∀ k r, 1 ≤ k → k ≤ retryAttempts → fetch k = .ok r →
      (∀ j, 1 ≤ j → j < k → ∃ e, fetch j = .error e) →
      (fetchSeasonWithRetry startYear fetch).result = .ok r ∧
      (fetchSeasonWithRetry startYear fetch).calls = k ∧
      (fetchSeasonWithRetry startYear fetch).sleeps =
        (List.range (k - 1)).map (fun j => retryDelay * (j + 1))) ∧
    (∀ e1 e2 e3, fetch 1 = .error e1 → fetch 2 = .error e2 → fetch 3 = .error e3 →
      (fetchSeasonWithRetry startYear fetch).result =
        .error (retryAttempts, startYear, some e3) ∧
      (fetchSeasonWithRetry startYear fetch).calls = retryAttempts ∧
      (fetchSeasonWithRetry startYear fetch).sleeps =
        [retryDelay * 1, retryDelay * 2]) := by
  refine ⟨?_, ?_, ?_⟩
  · cases h1 : fetch 1 with
    | ok r => simp [fetchSeasonWithRetry, retryAttempts, retryAux, h1]
    | error e1 =>
      cases h2 : fetch 2 with
      | ok r => simp [fetchSeasonWithRetry, retryAttempts, retryAux, h1, h2]
      | error e2 =>
        cases h3 : fetch 3 with
        | ok r => simp [fetchSeasonWithRetry, retryAttempts, retryAux, h1, h2, h3]
        | error e3 => simp [fetchSeasonWithRetry, retryAttempts, retryAux, h1, h2, h3]
  · intro k r hk1 hk3 hok hprev
    have hk3' : k ≤ 3 := hk3
    interval_cases k
    · simp [fetchSeasonWithRetry, retryAttempts, retryAux, hok]
    · obtain ⟨e1, he1⟩ := hprev 1 (by norm_num) (by norm_num)
      simp [fetchSeasonWithRetry, retryAttempts, retryAux, retryDelay, he1, hok,
        List.range_succ]
    · obtain ⟨e1, he1⟩ := hprev 1 (by norm_num) (by norm_num)
      obtain ⟨e2, he2⟩ := hprev 2 (by norm_num) (by norm_num)
      simp [fetchSeasonWithRetry, retryAttempts, retryAux, retryDelay, he1, he2, hok,
        List.range_succ]
  · intro e1 e2 e3 he1 he2 he3
    simp [fetchSeasonWithRetry, retryAttempts, retryAux, retryDelay, he1, he2, he3]

/-- Witness for C9: a fetch oracle failing on attempt 1 and
succeeding on attempt 2 yields the attempt 2 records after one sleep
of 2 seconds. -/
theorem fetchSeasonWithRetry_contract_witness :
    (fetchSeasonWithRetry 2025
      (fun n => if n < 2 then Except.error "boom" else Except.ok 42)).result =
        Except.ok 42 ∧
    (fetchSeasonWithRetry 2025
      (fun n => if n < 2 then Except.error "boom" else Except.ok 42)).calls = 2 ∧
    (fetchSeasonWithRetry 2025
      (fun n => if n < 2 then Except.error "boom" else Except.ok 42)).sleeps = [2] := by
  have h := (fetchSeasonWithRetry_contract 2025
    (fun n => if n < 2 then Except.error "boom" else Except.ok 42)).2.1
    2 42 (by norm_num) (by decide)
    (by simp) (by intro j hj1 hj2; exact ⟨"boom", by interval_cases j <;> simp⟩)
  refine ⟨h.1, h.2.1, by simpa [retryDelay] using h.2.2⟩

/-- The DayRecord struct of src/main.go. The date is an instant in
hours (the formatted DateStr field is omitted, being a pure rendering
of the date); full, injection and withdrawal are the parsed numeric
fields; daysElapsed, trend and trendMA7 are the derived fields filled
in by fetchSeason. -/
structure DayRecord where
  date : ℚ
  full : ℚ
  injection : ℚ
  withdrawal : ℚ
  daysElapsed : ℤ
  trend : ℚ
  trendMA7 : ℚ
deriving DecidableEq

instance : Inhabited DayRecord := ⟨⟨0, 0, 0, 0, 0, 0, 0⟩⟩

/-- A raw API row after parseDate and parseFloat succeeded: the
payload of the record-building loop of fetchSeason before the derived
fields are computed. -/
structure ParsedRecord where
  date : ℚ
  full : ℚ
  injection : ℚ
  withdrawal : ℚ
deriving DecidableEq

/-- The DayRecord literal built inside the parsing loop of
fetchSeason: elapsed is int(date.Sub(seasonStart).Hours() / 24) and
the trend fields start at the zero value of the struct. -/
def toDayRecord (seasonStart : ℚ) (r : ParsedRecord) : DayRecord :=
  ⟨r.date, r.full, r.injection, r.withdrawal,
    ratTruncInt ((r.date - seasonStart) / 24), 0, 0⟩

/-- Date order on day records, the less function of the sort.Slice
call in fetchSeason (records(i).Date.Before(records(j).Date), made
non-strict for the sortedness statement). -/
def dateLE (a b : DayRecord) : Prop := a.date ≤ b.date

instance : DecidableRel dateLE :=
  fun a b => inferInstanceAs (Decidable (a.date ≤ b.date))

instance : IsTotal DayRecord dateLE := ⟨fun a b => le_total a.date b.date⟩

instance : IsTrans DayRecord dateLE := ⟨fun _ _ _ h1 h2 => le_trans h1 h2⟩

/-- The ascending sort of fetchSeason. Go sort.Slice with the Before
less function produces some list that is sorted by non-decreasing
date and is a permutation of the input; insertion sort is one such
list and stands in for it. -/
def sortByDate (l : List DayRecord) : List DayRecord :=
  List.insertionSort dateLE l

/-- One iteration of the trend loop of fetchSeason, with done holding
the records already processed (the array prefix the Go loop has
already mutated). Trend is the difference to the preceding record
(kept at its initial value for the first record); the moving average
divides the sum of the trends at indices max(0, i-6) through i by the
window length, reading the already-updated prefix exactly as the Go
loop reads the mutated array. -/
def deriveStep (done : List DayRecord) (r : DayRecord) : DayRecord :=
  let t : ℚ :=
    match done.getLast? with
    | some p => r.full - p.full
    | none => r.trend
  let window : List ℚ :=
    ((done.map (fun x => x.trend)).drop (done.length - 6)) ++ [t]
  { r with trend := t, trendMA7 := window.sum / (window.length : ℚ) }

/-- The trend loop of fetchSeason as a left-to-right traversal
carrying the processed prefix. -/
def deriveAux : List DayRecord → List DayRecord → List DayRecord
  | done, [] => done
  | done, r :: rest => deriveAux (done ++ [deriveStep done r]) rest

/-- Derived-field computation of fetchSeason over a whole season. -/
def deriveTrends (recs : List DayRecord) : List DayRecord := deriveAux [] recs

/-- The pure core of fetchSeason after the HTTP response is parsed:
build the day records, sort ascending by date, then fill in trend and
the 7-day moving average. -/
def aggregate (seasonStart : ℚ) (rows : List ParsedRecord) : List DayRecord :=
  deriveTrends (sortByDate (rows.map (toDayRecord seasonStart)))

/-- Indexing helper for day-record lists, total via the default
record. -/
def nthRec (l : List DayRecord) (i : ℕ) : DayRecord := l.getD i default

/-- Indexing helper for rational lists, total via zero. -/
def nthQ (l : List ℚ) (i : ℕ) : ℚ := l.getD i 0

/-- A point of a projection curve: elapsed-day x, projected fill y,
and the raw hover instant (the Go code stores it formatted). -/
structure ScenarioPoint where
  x : ℚ
  y : ℚ
  hoverTime : ℚ
deriving DecidableEq

instance : Inhabited ScenarioPoint := ⟨⟨0, 0, 0⟩⟩

/-- The Scenario struct of src/main.go. HitDate is kept as a raw
optional instant (the empty string of the Go zero value becomes
none); name, points, slope and daysLeft are as in the source. -/
structure Scenario where
  name : String
  points : List ScenarioPoint
  hitTime : Option ℚ
  slope : ℚ
  daysLeft : ℤ
deriving DecidableEq

instance : Inhabited Scenario := ⟨⟨"", [], none, 0, 0⟩⟩

/-- The function makeProjectionPoints of src/main.go: n points evenly
spaced over totalDays starting at the current day and value. The Go
hover date startDate.Add(time.Duration(d*24)*time.Hour) truncates
d*24 to a whole number of hours, hence the ratTruncInt. -/
def makeProjectionPoints (startDay : ℤ) (startVal slope totalDays : ℚ)
    (startDate : ℚ) (n : ℕ) : List ScenarioPoint :=
  (List.range n).map (fun i : ℕ =>
    let d : ℚ := totalDays * (i : ℚ) / ((n - 1 : ℕ) : ℚ)
    ⟨(startDay : ℚ) + d, startVal + slope * d,
      startDate + ((ratTruncInt (d * 24) : ℤ) : ℚ)⟩)

/-- The function linearRegression of src/main.go: ordinary least
squares of fill versus elapsed day, with the short-input and the
degenerate-denominator guards (1e-10) of the source. -/
def linearRegression (records : List DayRecord) : ℚ × ℚ :=
  let n : ℚ := (records.length : ℚ)
  if n < 2 then (0, 0)
  else
    let sx := (records.map (fun r => ((r.daysElapsed : ℚ)))).sum
    let sy := (records.map (fun r => r.full)).sum
    let sxy := (records.map (fun r => (r.daysElapsed : ℚ) * r.full)).sum
    let sx2 := (records.map (fun r => (r.daysElapsed : ℚ) * (r.daysElapsed : ℚ))).sum
    let d := n * sx2 - sx * sx
    if |d| < 1 / 10000000000 then (0, sy / n)
    else
      let slope := (n * sxy - sx * sy) / d
      (slope, (sy - slope * sx) / n)

/-- The historical-analog loop of generateScenarios: walk the
records of the preceding season, and for each one past the current
elapsed day emit a point shifted so the curve starts at the current
value; the base is latched from the first such record (the found flag
of the Go loop becomes the optional base argument). -/
def histLoop (currentDay : ℤ) (currentVal : ℚ) :
    List DayRecord → Option ℚ → List ScenarioPoint
  | [], _ => []
  | r :: rest, base? =>
    if currentDay < r.daysElapsed then
      let b := base?.getD r.full
      ⟨(r.daysElapsed : ℚ), currentVal + (r.full - b), r.date⟩ ::
        histLoop currentDay currentVal rest (some b)
    else histLoop currentDay currentVal rest base?

/-- The Linear scenario literal built by generateScenarios when the
trailing-window slope is negative: days to threshold is the critical
threshold minus the current fill, divided by the slope; the hit
instant mirrors the Go lastDate.Add(time.Duration(days*24)*time.Hour)
which truncates days*24 to whole hours; DaysLeft is int(days). -/
def linearScenarioOf (current : List DayRecord) : Scenario :=
  let lastRec := current.getLastD default
  let currentVal := lastRec.full
  let currentDay := lastRec.daysElapsed
  let lastDate := lastRec.date
  let slope := (linearRegression (current.drop (current.length - trendWindow))).1
  let days := (criticalThreshold - currentVal) / slope
  ⟨"Linear", makeProjectionPoints currentDay currentVal slope days lastDate 50,
    some (lastDate + ((ratTruncInt (days * 24) : ℤ) : ℚ)), slope, ratTruncInt days⟩

/-- The Stress scenario literal of generateScenarios: identical to
the Linear one with the slope multiplied by the stress factor. -/
def stressScenarioOf (current : List DayRecord) : Scenario :=
  let lastRec := current.getLastD default
  let currentVal := lastRec.full
  let currentDay := lastRec.daysElapsed
  let lastDate := lastRec.date
  let slope := (linearRegression (current.drop (current.length - trendWindow))).1
  let ss := slope * stressMultiplier
  let sd := (criticalThreshold - currentVal) / ss
  ⟨"Stress", makeProjectionPoints currentDay currentVal ss sd lastDate 50,
    some (lastDate + ((ratTruncInt (sd * 24) : ℤ) : ℚ)), ss, ratTruncInt sd⟩

/-- The historical-analog block of generateScenarios: look up the
season preceding the current start year and, when it is present,
non-empty and yields points beyond the current day, emit the History
scenario. -/
def historyScenarios (current : List DayRecord)
    (allSeasons : ℤ → Option (List DayRecord)) (currentStartYear : ℤ) :
    List Scenario :=
  let lastRec := current.getLastD default
  let currentVal := lastRec.full
  let currentDay := lastRec.daysElapsed
  match allSeasons (currentStartYear - 1) with
  | some recs =>
    if recs.length ≠ 0 then
      let pts := histLoop currentDay currentVal recs none
      if pts.length ≠ 0 then [⟨"History", pts, none, 0, 0⟩] else []
    else []
  | none => []

/-- The function generateScenarios of src/main.go. With fewer than
trendWindow current records nothing is produced; otherwise the slope
over the trailing window decides the Linear and Stress projections
and the season preceding the current start year feeds the
historical-analog curve; the Go code appends Linear, Stress, History
in this order. -/
def generateScenarios (current : List DayRecord)
    (allSeasons : ℤ → Option (List DayRecord)) (currentStartYear : ℤ) :
    List Scenario :=
  if current.length < trendWindow then []
  else
    (if (linearRegression (current.drop (current.length - trendWindow))).1 < 0 then
      [linearScenarioOf current, stressScenarioOf current]
    else []) ++ historyScenarios current allSeasons currentStartYear

/-- The KPIData struct of src/main.go, with the current date kept as
a raw instant. -/
structure KPIData where
  currentFill : ℚ
  currentDate : ℚ
  delta7d : ℚ
  avgWithdrawal : ℚ
  daysToCrit : ℤ
deriving DecidableEq

/-- The function buildKPI of src/main.go: headline indicators from
the last record, the record seven back, the trailing up-to-7
withdrawals, and the Linear scenario when it has positive days
left (999 is the unknown sentinel). -/
def buildKPI (records : List DayRecord) (scenarios : List Scenario) : KPIData :=
  let last := records.getLastD default
  let delta : ℚ :=
    if 7 ≤ records.length then
      last.full - (records.getD (records.length - 7) default).full
    else 0
  let tail := records.drop (records.length - 7)
  let avg := (tail.map (fun r => r.withdrawal)).sum / (tail.length : ℚ)
  let dtc := scenarios.foldl
    (fun acc s => if s.name = "Linear" ∧ 0 < s.daysLeft then s.daysLeft else acc) 999
  ⟨last.full, last.date, delta, avg, dtc⟩

lemma deriveAux_length : ∀ (rest done : List DayRecord),
    (deriveAux done rest).length = done.length + rest.length := by
  intro rest
  induction rest with
  | nil => intro done; simp [deriveAux]
  | cons r rest ih =>
    intro done
    simp only [deriveAux]
    rw [ih]
    simp
    omega

lemma deriveAux_take : ∀ (rest done : List DayRecord),
    (deriveAux done rest).take done.length = done := by
  intro rest
  induction rest with
  | nil => intro done; simp [deriveAux]
  | cons r rest ih =>
    intro done
    simp only [deriveAux]
    calc (deriveAux (done ++ [deriveStep done r]) rest).take done.length
        = ((deriveAux (done ++ [deriveStep done r]) rest).take
            ((done ++ [deriveStep done r]).length)).take done.length := by
          rw [List.take_take]
          congr 1
          simp [List.length_append]
      _ = (done ++ [deriveStep done r]).take done.length := by rw [ih]
      _ = done := List.take_left done [deriveStep done r]

lemma deriveAux_getD_lt (rest done : List DayRecord) (j : ℕ)
    (hj : j < done.length) :
    (deriveAux done rest).getD j default = done.getD j default := by
  have ht := deriveAux_take rest done
  rw [List.getD_eq_getElem?_getD, List.getD_eq_getElem?_getD]
  have h2 : (deriveAux done rest)[j]? = ((deriveAux done rest).take done.length)[j]? := by
    rw [List.getElem?_take, if_pos hj]
  rw [h2, ht]

lemma getD_append_self (l : List DayRecord) (x : DayRecord) :
    (l ++ [x]).getD l.length default = x := by
  rw [List.getD_eq_getElem?_getD, List.getElem?_append_right (le_refl _)]
  simp

lemma getD_append_lt (l1 l2 : List DayRecord) (j : ℕ) (hj : j < l1.length) :
    (l1 ++ l2).getD j default = l1.getD j default := by
  rw [List.getD_eq_getElem?_getD, List.getD_eq_getElem?_getD,
    List.getElem?_append_left hj]

lemma getLast?_eq_getD (l : List DayRecord) (h : l ≠ []) :
    l.getLast? = some (l.getD (l.length - 1) default) := by
  have hl : 0 < l.length := List.length_pos.mpr h
  rw [List.getLast?_eq_getElem?, List.getD_eq_getElem?_getD,
    List.getElem?_eq_getElem (by omega)]
  rfl

lemma deriveAux_spec : ∀ (rest done : List DayRecord) (k : ℕ), k < rest.length →
    ((nthRec (deriveAux done rest) (done.length + k)).date = (nthRec rest k).date ∧
     (nthRec (deriveAux done rest) (done.length + k)).full = (nthRec rest k).full ∧
     (nthRec (deriveAux done rest) (done.length + k)).injection = (nthRec rest k).injection ∧
     (nthRec (deriveAux done rest) (done.length + k)).withdrawal = (nthRec rest k).withdrawal ∧
     (nthRec (deriveAux done rest) (done.length + k)).daysElapsed = (nthRec rest k).daysElapsed) ∧
    ((nthRec (deriveAux done rest) (done.length + k)).trend =
      if done.length + k = 0 then (nthRec rest 0).trend
      else (nthRec (deriveAux done rest) (done.length + k)).full -
        (nthRec (deriveAux done rest) (done.length + k - 1)).full) ∧
    ((nthRec (deriveAux done rest) (done.length + k)).trendMA7 =
      ((((deriveAux done rest).map (fun x => x.trend)).take (done.length + k + 1)).drop
          (done.length + k - 6)).sum /
        (((((deriveAux done rest).map (fun x => x.trend)).take (done.length + k + 1)).drop
          (done.length + k - 6)).length : ℚ)) := by
  intro rest
  induction rest with
  | nil => intro done k hk; simp at hk
  | cons r rest ih =>
    intro done k hk
    cases k with
    | succ k =>
      have hk' : k < rest.length := by simpa using hk
      have H := ih (done ++ [deriveStep done r]) k hk'
      have hidx : (done ++ [deriveStep done r]).length + k = done.length + (k + 1) := by
        simp [List.length_append]
        omega
      rw [hidx] at H
      simp only [deriveAux]
      have hcons0 : nthRec (r :: rest) (k + 1) = nthRec rest k := by
        simp [nthRec]
      rw [hcons0]
      refine ⟨H.1, ?_, H.2.2⟩
      rw [if_neg (by omega)]
      have := H.2.1
      rwa [if_neg (by omega)] at this
    | zero =>
      simp only [Nat.add_zero] at *
      simp only [deriveAux]
      set r' := deriveStep done r with hr'
      set out := deriveAux (done ++ [r']) rest with hout
      have hself : nthRec out done.length = r' := by
        have h1 : out.getD done.length default = (done ++ [r']).getD done.length default := by
          have := deriveAux_getD_lt rest (done ++ [r']) done.length (by simp)
          rw [hout]
          exact this
        rw [nthRec, h1, getD_append_self]
      have htake : out.take (done.length + 1) = done ++ [r'] := by
        have := deriveAux_take rest (done ++ [r'])
        rw [hout]
        simpa [List.length_append] using this
      have hmap : (out.map (fun x => x.trend)).take (done.length + 1) =
          (done.map (fun x => x.trend)) ++ [r'.trend] := by
        rw [← List.map_take, htake]
        simp
      have hpayload : nthRec (r :: rest) 0 = r := by simp [nthRec]
      rw [hself, hpayload]
      refine ⟨⟨rfl, rfl, rfl, rfl, rfl⟩, ?_, ?_⟩
      · by_cases hdone : done = []
        · subst hdone
          simp only [List.length_nil, if_pos rfl]
          rw [hr']
          simp [deriveStep]
        · rw [if_neg (by simpa [List.length_eq_zero] using hdone)]
          have hdl : 0 < done.length := List.length_pos.mpr hdone
          have hglast := getLast?_eq_getD done hdone
          have hprev : nthRec out (done.length - 1) = done.getD (done.length - 1) default := by
            rw [nthRec, hout]
            rw [deriveAux_getD_lt rest (done ++ [r']) (done.length - 1)
              (by simp [List.length_append]; omega)]
            exact getD_append_lt done [r'] _ (by omega)
          rw [hprev]
          rw [hr']
          simp only [deriveStep, hglast]
      · rw [hmap, List.drop_append_of_le_length (by simp)]
        rw [hr']
        simp only [deriveStep, List.length_map]

lemma nthRec_eq_getElem (l : List DayRecord) (i : ℕ) (h : i < l.length) :
    nthRec l i = l[i] := by
  rw [nthRec, List.getD_eq_getElem?_getD, List.getElem?_eq_getElem h]
  rfl

lemma listSum_eq_sum_range (l : List ℚ) :
    l.sum = ∑ j in Finset.range l.length, nthQ l j := by
  induction l with
  | nil => simp
  | cons x t ih =>
    rw [List.sum_cons, ih, List.length_cons, Finset.sum_range_succ']
    simp only [nthQ, List.getD_cons_succ, List.getD_cons_zero]
    ring

lemma sum_take_eq (l : List ℚ) (n : ℕ) (hn : n ≤ l.length) :
    (l.take n).sum = ∑ j in Finset.range n, nthQ l j := by
  rw [listSum_eq_sum_range (l.take n)]
  have hlen : (l.take n).length = n := by simp [hn]
  rw [hlen]
  refine Finset.sum_congr rfl ?_
  intro j hj
  have hj' : j < n := Finset.mem_range.mp hj
  unfold nthQ
  rw [List.getD_eq_getElem?_getD, List.getD_eq_getElem?_getD]
  congr 1
  rw [List.getElem?_take, if_pos hj']

lemma window_sum (l : List ℚ) (i : ℕ) (hi : i < l.length) :
    ((l.take (i + 1)).drop (i - 6)).sum = ∑ j in Finset.Icc (i - 6) i, nthQ l j := by
  have h1 := List.sum_take_add_sum_drop (l.take (i + 1)) (i - 6)
  have h2 : (l.take (i + 1)).take (i - 6) = l.take (i - 6) := by
    rw [List.take_take]
    congr 1
    omega
  rw [h2] at h1
  have h3 := sum_take_eq l (i + 1) (by omega)
  have h4 := sum_take_eq l (i - 6) (by omega)
  have h5 : ∑ j in Finset.Icc (i - 6) i, nthQ l j =
      ∑ j in Finset.Ico (i - 6) (i + 1), nthQ l j := by
    rw [Nat.Ico_succ_right]
  rw [h5, Finset.sum_Ico_eq_sub _ (by omega)]
  linarith [h1, h3, h4]

lemma window_length (l : List ℚ) (i : ℕ) (hi : i < l.length) :
    ((l.take (i + 1)).drop (i - 6)).length = (Finset.Icc (i - 6) i).card := by
  rw [List.length_drop, List.length_take, Nat.card_Icc]
  omega

lemma nthQ_map_trend (l : List DayRecord) (j : ℕ) (hj : j < l.length) :
    nthQ (l.map (fun x => x.trend)) j = (nthRec l j).trend := by
  unfold nthQ nthRec
  rw [List.getD_eq_getElem?_getD, List.getD_eq_getElem?_getD, List.getElem?_map,
    List.getElem?_eq_getElem hj]
  rfl

lemma sortByDate_length (l : List DayRecord) : (sortByDate l).length = l.length :=
  (List.perm_insertionSort dateLE l).length_eq

lemma aggregate_length (seasonStart : ℚ) (rows : List ParsedRecord) :
    (aggregate seasonStart rows).length = rows.length := by
  unfold aggregate deriveTrends
  rw [deriveAux_length]
  simp only [List.length_nil, Nat.zero_add]
  rw [sortByDate_length, List.length_map]

lemma sorted_mem_toDayRecord (seasonStart : ℚ) (rows : List ParsedRecord) (i : ℕ)
    (hi : i < (sortByDate (rows.map (toDayRecord seasonStart))).length) :
    ∃ row ∈ rows,
      nthRec (sortByDate (rows.map (toDayRecord seasonStart))) i =
        toDayRecord seasonStart row := by
  have hmem : nthRec (sortByDate (rows.map (toDayRecord seasonStart))) i ∈
      sortByDate (rows.map (toDayRecord seasonStart)) := by
    rw [nthRec_eq_getElem _ i hi]
    exact List.getElem_mem hi
  have hmem2 : nthRec (sortByDate (rows.map (toDayRecord seasonStart))) i ∈
      rows.map (toDayRecord seasonStart) :=
    ((List.perm_insertionSort dateLE _).mem_iff).mp hmem
  obtain ⟨row, hrow, heq⟩ := List.mem_map.mp hmem2
  exact ⟨row, hrow, heq.symm⟩

lemma aggregate_payload (seasonStart : ℚ) (rows : List ParsedRecord) (i : ℕ)
    (hi : i < (aggregate seasonStart rows).length) :
    ∃ row ∈ rows,
      (nthRec (aggregate seasonStart rows) i).date = row.date ∧
      (nthRec (aggregate seasonStart rows) i).full = row.full ∧
      (nthRec (aggregate seasonStart rows) i).daysElapsed =
        ratTruncInt ((row.date - seasonStart) / 24) := by
  have hi' : i < (sortByDate (rows.map (toDayRecord seasonStart))).length := by
    rw [sortByDate_length, List.length_map, ← aggregate_length seasonStart rows]
    exact hi
  have H := deriveAux_spec (sortByDate (rows.map (toDayRecord seasonStart))) [] i hi'
  simp only [List.length_nil, Nat.zero_add] at H
  obtain ⟨row, hrow, heq⟩ := sorted_mem_toDayRecord seasonStart rows i hi'
  refine ⟨row, hrow, ?_, ?_, ?_⟩
  · rw [show (aggregate seasonStart rows) =
      deriveAux [] (sortByDate (rows.map (toDayRecord seasonStart))) from rfl]
    rw [H.1.1, heq]
    rfl
  · rw [show (aggregate seasonStart rows) =
      deriveAux [] (sortByDate (rows.map (toDayRecord seasonStart))) from rfl]
    rw [H.1.2.1, heq]
    rfl
  · rw [show (aggregate seasonStart rows) =
      deriveAux [] (sortByDate (rows.map (toDayRecord seasonStart))) from rfl]
    rw [H.1.2.2.2.2, heq]
    rfl

/-- C3: for every aggregated season, the trend of the first record is
zero, the trend at i is the fill difference to the preceding record,
and the 7-day moving average at i is the arithmetic mean of the
trends over indices max(0, i-6) through i: the window shrinks at the
start and never looks ahead. -/
theorem trend_ma7_spec (seasonStart : ℚ) (rows : List ParsedRecord) (i : ℕ)
    (hi : i < (aggregate seasonStart rows).length) :
    (i = 0 → (nthRec (aggregate seasonStart rows) 0).trend = 0) ∧
    (0 < i → (nthRec (aggregate seasonStart rows) i).trend =
      (nthRec (aggregate seasonStart rows) i).full -
      (nthRec (aggregate seasonStart rows) (i - 1)).full) ∧
    ((nthRec (aggregate seasonStart rows) i).trendMA7 =
      (∑ j in Finset.Icc (i - 6) i, (nthRec (aggregate seasonStart rows) j).trend) /
        (((Finset.Icc (i - 6) i).card : ℕ) : ℚ)) := by
  have hi' : i < (sortByDate (rows.map (toDayRecord seasonStart))).length := by
    rw [sortByDate_length, List.length_map, ← aggregate_length seasonStart rows]
    exact hi
  have H := deriveAux_spec (sortByDate (rows.map (toDayRecord seasonStart))) [] i hi'
  simp only [List.length_nil, Nat.zero_add] at H
  have hagg : aggregate seasonStart rows =
      deriveAux [] (sortByDate (rows.map (toDayRecord seasonStart))) := rfl
  refine ⟨?_, ?_, ?_⟩
  · intro h0
    subst h0
    rw [hagg]
    rw [H.2.1, if_pos rfl]
    obtain ⟨row, _, heq⟩ := sorted_mem_toDayRecord seasonStart rows 0 hi'
    rw [heq]
    rfl
  · intro h0
    rw [hagg]
    rw [H.2.1, if_neg (by omega)]
  · have hmlen : i < ((aggregate seasonStart rows).map (fun x => x.trend)).length := by
      rw [List.length_map]
      exact hi
    rw [hagg] at hmlen
    rw [hagg, H.2.2]
    rw [window_sum _ i hmlen, window_length _ i hmlen]
    congr 1
    refine Finset.sum_congr rfl ?_
    intro j hj
    have hj' : j ≤ i := (Finset.mem_Icc.mp hj).2
    refine nthQ_map_trend _ j ?_
    have hlen2 := deriveAux_length (sortByDate (rows.map (toDayRecord seasonStart))) []
    simp only [List.length_nil, Nat.zero_add] at hlen2
    omega

/-- Witness for C3 on a concrete three-row season. -/
theorem trend_ma7_spec_witness :
    (2 = 0 → (nthRec (aggregate 0 [⟨0, 60, 0, 0⟩, ⟨24, 63, 0, 0⟩, ⟨48, 61, 0, 0⟩]) 0).trend = 0) ∧
    (0 < 2 → (nthRec (aggregate 0 [⟨0, 60, 0, 0⟩, ⟨24, 63, 0, 0⟩, ⟨48, 61, 0, 0⟩]) 2).trend =
      (nthRec (aggregate 0 [⟨0, 60, 0, 0⟩, ⟨24, 63, 0, 0⟩, ⟨48, 61, 0, 0⟩]) 2).full -
      (nthRec (aggregate 0 [⟨0, 60, 0, 0⟩, ⟨24, 63, 0, 0⟩, ⟨48, 61, 0, 0⟩]) 1).full) ∧
    ((nthRec (aggregate 0 [⟨0, 60, 0, 0⟩, ⟨24, 63, 0, 0⟩, ⟨48, 61, 0, 0⟩]) 2).trendMA7 =
      (∑ j in Finset.Icc (2 - 6) 2,
        (nthRec (aggregate 0 [⟨0, 60, 0, 0⟩, ⟨24, 63, 0, 0⟩, ⟨48, 61, 0, 0⟩]) j).trend) /
        (((Finset.Icc (2 - 6) 2).card : ℕ) : ℚ)) :=
  trend_ma7_spec 0 [⟨0, 60, 0, 0⟩, ⟨24, 63, 0, 0⟩, ⟨48, 61, 0, 0⟩] 2 (by decide)

lemma aggregate_date_eq (seasonStart : ℚ) (rows : List ParsedRecord) (i : ℕ)
    (hi : i < (aggregate seasonStart rows).length) :
    (nthRec (aggregate seasonStart rows) i).date =
      (nthRec (sortByDate (rows.map (toDayRecord seasonStart))) i).date := by
  have hi' : i < (sortByDate (rows.map (toDayRecord seasonStart))).length := by
    rw [sortByDate_length, List.length_map, ← aggregate_length seasonStart rows]
    exact hi
  have H := deriveAux_spec (sortByDate (rows.map (toDayRecord seasonStart))) [] i hi'
  simp only [List.length_nil, Nat.zero_add] at H
  exact H.1.1

lemma aggregate_sorted (seasonStart : ℚ) (rows : List ParsedRecord) :
    List.Sorted dateLE (aggregate seasonStart rows) := by
  have hs : List.Sorted dateLE (sortByDate (rows.map (toDayRecord seasonStart))) :=
    List.sorted_insertionSort dateLE _
  have hlen : (aggregate seasonStart rows).length =
      (sortByDate (rows.map (toDayRecord seasonStart))).length := by
    rw [aggregate_length, sortByDate_length, List.length_map]
  show List.Pairwise dateLE (aggregate seasonStart rows)
  rw [List.pairwise_iff_getElem]
  intro i j hi hj hij
  have hi2 : i < (sortByDate (rows.map (toDayRecord seasonStart))).length := by omega
  have hj2 : j < (sortByDate (rows.map (toDayRecord seasonStart))).length := by omega
  have hs2 := List.pairwise_iff_getElem.mp hs i j hi2 hj2 hij
  show ((aggregate seasonStart rows)[i]).date ≤ ((aggregate seasonStart rows)[j]).date
  rw [← nthRec_eq_getElem _ i hi, ← nthRec_eq_getElem _ j hj,
    aggregate_date_eq seasonStart rows i hi, aggregate_date_eq seasonStart rows j hj,
    nthRec_eq_getElem _ i hi2, nthRec_eq_getElem _ j hj2]
  exact hs2

lemma ratTruncInt_intCast (k : ℤ) : ratTruncInt (k : ℚ) = k := by
  unfold ratTruncInt
  split_ifs <;> simp

lemma ratTruncInt_mul24 (k : ℤ) : ratTruncInt (24 * (k : ℚ) / 24) = k := by
  rw [mul_div_cancel_left₀ _ (by norm_num : (24 : ℚ) ≠ 0)]
  exact ratTruncInt_intCast k

/-- C4 amended: every aggregated season is sorted by non-decreasing
date and each elapsed-days field is the truncated whole-day offset of
the record date from the season start; when all row dates sit a whole
number of days from the season start (as all date-only upstream rows
do), consecutive elapsed-days differ by exactly the whole-day date
difference. The unconditional additive identity of the original claim
fails for sub-day timestamps, see the counterexample. -/
theorem season_sorted_elapsed (seasonStart : ℚ) (rows : List ParsedRecord) :
    List.Sorted dateLE (aggregate seasonStart rows) ∧
    (∀ i, i < (aggregate seasonStart rows).length →
      (nthRec (aggregate seasonStart rows) i).daysElapsed =
        ratTruncInt (((nthRec (aggregate seasonStart rows) i).date - seasonStart) / 24)) ∧
    ((∀ row ∈ rows, ∃ k : ℤ, row.date - seasonStart = 24 * k) →
      ∀ i, 0 < i → i < (aggregate seasonStart rows).length →
      (nthRec (aggregate seasonStart rows) i).daysElapsed =
        (nthRec (aggregate seasonStart rows) (i - 1)).daysElapsed +
        ratTruncInt (((nthRec (aggregate seasonStart rows) i).date -
          (nthRec (aggregate seasonStart rows) (i - 1)).date) / 24)) := by
  refine ⟨aggregate_sorted seasonStart rows, ?_, ?_⟩
  · intro i hi
    obtain ⟨row, _, hdate, _, hdays⟩ := aggregate_payload seasonStart rows i hi
    rw [hdays, hdate]
  · intro hwd i hi0 hi
    obtain ⟨rowa, hmema, hdatea, _, hdaysa⟩ := aggregate_payload seasonStart rows i hi
    obtain ⟨rowb, hmemb, hdateb, _, hdaysb⟩ :=
      aggregate_payload seasonStart rows (i - 1) (by omega)
    obtain ⟨ka, hka⟩ := hwd rowa hmema
    obtain ⟨kb, hkb⟩ := hwd rowb hmemb
    have hea : (nthRec (aggregate seasonStart rows) i).daysElapsed = ka := by
      rw [hdaysa, show rowa.date - seasonStart = 24 * (ka : ℚ) from hka,
        ratTruncInt_mul24]
    have heb : (nthRec (aggregate seasonStart rows) (i - 1)).daysElapsed = kb := by
      rw [hdaysb, show rowb.date - seasonStart = 24 * (kb : ℚ) from hkb,
        ratTruncInt_mul24]
    have hdiff : (nthRec (aggregate seasonStart rows) i).date -
        (nthRec (aggregate seasonStart rows) (i - 1)).date = 24 * ((ka - kb : ℤ) : ℚ) := by
      rw [hdatea, hdateb]
      have h1 : rowa.date = seasonStart + 24 * (ka : ℚ) := by linarith [hka]
      have h2 : rowb.date = seasonStart + 24 * (kb : ℚ) := by linarith [hkb]
      rw [h1, h2]
      push_cast
      ring
    rw [hea, heb, hdiff, ratTruncInt_mul24]
    ring

/-- Counterexample for C4 as stated: with the season starting at
instant 0, a record at hour 12 and one at hour 49 (both parseable by
parseDate through its time-bearing formats) get elapsed days 0 and 2,
while the truncated day difference between the two dates is 1, so the
additive identity fails on the aggregated season. -/
theorem season_elapsed_addition_cex :
    ¬ ((nthRec (aggregate 0 [⟨12, 50, 0, 0⟩, ⟨49, 48, 0, 0⟩]) 1).daysElapsed =
      (nthRec (aggregate 0 [⟨12, 50, 0, 0⟩, ⟨49, 48, 0, 0⟩]) 0).daysElapsed +
      ratTruncInt (((nthRec (aggregate 0 [⟨12, 50, 0, 0⟩, ⟨49, 48, 0, 0⟩]) 1).date -
        (nthRec (aggregate 0 [⟨12, 50, 0, 0⟩, ⟨49, 48, 0, 0⟩]) 0).date) / 24)) := by
  have hagg : aggregate 0 [⟨12, 50, 0, 0⟩, ⟨49, 48, 0, 0⟩] =
      [⟨12, 50, 0, 0, 0, 0, 0⟩, ⟨49, 48, 0, 0, 2, -2, -1⟩] := by
    unfold aggregate sortByDate deriveTrends
    norm_num [toDayRecord, ratTruncInt, List.insertionSort, List.orderedInsert, dateLE,
      deriveAux, deriveStep]
  rw [hagg]
  intro hcl
  norm_num [nthRec, ratTruncInt] at hcl

/-- Witness for C4 on a concrete whole-day two-row season. -/
theorem season_sorted_elapsed_witness :
    (nthRec (aggregate 0 [⟨0, 50, 0, 0⟩, ⟨48, 47, 0, 0⟩]) 1).daysElapsed =
      (nthRec (aggregate 0 [⟨0, 50, 0, 0⟩, ⟨48, 47, 0, 0⟩]) 0).daysElapsed +
      ratTruncInt (((nthRec (aggregate 0 [⟨0, 50, 0, 0⟩, ⟨48, 47, 0, 0⟩]) 1).date -
        (nthRec (aggregate 0 [⟨0, 50, 0, 0⟩, ⟨48, 47, 0, 0⟩]) 0).date) / 24) :=
  (season_sorted_elapsed 0 [⟨0, 50, 0, 0⟩, ⟨48, 47, 0, 0⟩]).2.2
    (by
      intro row hrow
      simp only [List.mem_cons, List.not_mem_nil, or_false] at hrow
      rcases hrow with h | h
      · exact ⟨0, by rw [h]; norm_num⟩
      · exact ⟨2, by rw [h]; norm_num⟩)
    1 (by norm_num) (by decide)

/-- C7: the KPI 7-day delta is the last fill minus the fill of the
seventh-from-last record, and zero when fewer than 7 records exist. -/
theorem kpi_delta7d (records : List DayRecord) (scenarios : List Scenario)
    (h : records ≠ []) :
    (7 ≤ records.length →
      (buildKPI records scenarios).delta7d =
        (records.getLastD default).full -
        (nthRec records (records.length - 7)).full) ∧
    (records.length < 7 → (buildKPI records scenarios).delta7d = 0) := by
  constructor
  · intro h7
    simp only [buildKPI]
    rw [if_pos h7]
    rfl
  · intro h7
    simp only [buildKPI]
    rw [if_neg (by omega)]

/-- Witness for C7 on a concrete seven-record season. -/
theorem kpi_delta7d_witness :
    (7 ≤ ([⟨0, 40, 0, 0, 0, 0, 0⟩, ⟨24, 41, 0, 0, 1, 0, 0⟩, ⟨48, 42, 0, 0, 2, 0, 0⟩,
        ⟨72, 43, 0, 0, 3, 0, 0⟩, ⟨96, 44, 0, 0, 4, 0, 0⟩, ⟨120, 45, 0, 0, 5, 0, 0⟩,
        ⟨144, 46, 0, 0, 6, 0, 0⟩] : List DayRecord).length →
      (buildKPI [⟨0, 40, 0, 0, 0, 0, 0⟩, ⟨24, 41, 0, 0, 1, 0, 0⟩, ⟨48, 42, 0, 0, 2, 0, 0⟩,
        ⟨72, 43, 0, 0, 3, 0, 0⟩, ⟨96, 44, 0, 0, 4, 0, 0⟩, ⟨120, 45, 0, 0, 5, 0, 0⟩,
        ⟨144, 46, 0, 0, 6, 0, 0⟩] []).delta7d =
        (([⟨0, 40, 0, 0, 0, 0, 0⟩, ⟨24, 41, 0, 0, 1, 0, 0⟩, ⟨48, 42, 0, 0, 2, 0, 0⟩,
        ⟨72, 43, 0, 0, 3, 0, 0⟩, ⟨96, 44, 0, 0, 4, 0, 0⟩, ⟨120, 45, 0, 0, 5, 0, 0⟩,
        ⟨144, 46, 0, 0, 6, 0, 0⟩] : List DayRecord).getLastD default).full -
        (nthRec [⟨0, 40, 0, 0, 0, 0, 0⟩, ⟨24, 41, 0, 0, 1, 0, 0⟩, ⟨48, 42, 0, 0, 2, 0, 0⟩,
        ⟨72, 43, 0, 0, 3, 0, 0⟩, ⟨96, 44, 0, 0, 4, 0, 0⟩, ⟨120, 45, 0, 0, 5, 0, 0⟩,
        ⟨144, 46, 0, 0, 6, 0, 0⟩]
          (([⟨0, 40, 0, 0, 0, 0, 0⟩, ⟨24, 41, 0, 0, 1, 0, 0⟩, ⟨48, 42, 0, 0, 2, 0, 0⟩,
        ⟨72, 43, 0, 0, 3, 0, 0⟩, ⟨96, 44, 0, 0, 4, 0, 0⟩, ⟨120, 45, 0, 0, 5, 0, 0⟩,
        ⟨144, 46, 0, 0, 6, 0, 0⟩] : List DayRecord).length - 7)).full) ∧
    (([⟨0, 40, 0, 0, 0, 0, 0⟩, ⟨24, 41, 0, 0, 1, 0, 0⟩, ⟨48, 42, 0, 0, 2, 0, 0⟩,
        ⟨72, 43, 0, 0, 3, 0, 0⟩, ⟨96, 44, 0, 0, 4, 0, 0⟩, ⟨120, 45, 0, 0, 5, 0, 0⟩,
        ⟨144, 46, 0, 0, 6, 0, 0⟩] : List DayRecord).length < 7 →
      (buildKPI [⟨0, 40, 0, 0, 0, 0, 0⟩, ⟨24, 41, 0, 0, 1, 0, 0⟩, ⟨48, 42, 0, 0, 2, 0, 0⟩,
        ⟨72, 43, 0, 0, 3, 0, 0⟩, ⟨96, 44, 0, 0, 4, 0, 0⟩, ⟨120, 45, 0, 0, 5, 0, 0⟩,
        ⟨144, 46, 0, 0, 6, 0, 0⟩] []).delta7d = 0) :=
  kpi_delta7d _ [] (by simp)

lemma sum_sq_expand (x : ℚ) (t : List ℚ) :
    (t.map (fun y => (x - y) ^ 2)).sum =
      (t.length : ℚ) * x ^ 2 - 2 * x * t.sum + (t.map (fun y => y ^ 2)).sum := by
  induction t with
  | nil => simp
  | cons a t ih =>
    simp only [List.map_cons, List.sum_cons, List.length_cons, ih]
    push_cast
    ring

/-- Sum of the squared pairwise differences of a list, used to show
the regression denominator of a season with two distinct elapsed days
is positive. -/
def pairSq : List ℚ → ℚ
  | [] => 0
  | x :: t => (t.map (fun y => (x - y) ^ 2)).sum + pairSq t

lemma pairSq_nonneg (l : List ℚ) : 0 ≤ pairSq l := by
  induction l with
  | nil => simp [pairSq]
  | cons x t ih =>
    have h1 : 0 ≤ (t.map (fun y => (x - y) ^ 2)).sum := by
      refine List.sum_nonneg ?_
      intro y hy
      obtain ⟨z, _, hz⟩ := List.mem_map.mp hy
      rw [← hz]
      exact sq_nonneg _
    simp only [pairSq]
    linarith

lemma pairSq_eq (l : List ℚ) :
    (l.length : ℚ) * (l.map (fun y => y ^ 2)).sum - l.sum ^ 2 = pairSq l := by
  induction l with
  | nil => simp [pairSq]
  | cons x t ih =>
    simp only [pairSq, List.length_cons, List.map_cons, List.sum_cons, sum_sq_expand]
    rw [← ih]
    push_cast
    ring

lemma sum_pos_of_mem : ∀ (l : List ℚ), (∀ y ∈ l, 0 ≤ y) →
    ∀ a ∈ l, 0 < a → 0 < l.sum := by
  intro l
  induction l with
  | nil => intro _ a ha; cases ha
  | cons x t ih =>
    intro h0 a ha hpos
    rw [List.sum_cons]
    have ht : 0 ≤ t.sum :=
      List.sum_nonneg (fun y hy => h0 y (List.mem_cons_of_mem _ hy))
    rcases List.mem_cons.mp ha with rfl | hat
    · linarith
    · have hx := h0 x (List.mem_cons_self _ _)
      have := ih (fun y hy => h0 y (List.mem_cons_of_mem _ hy)) a hat hpos
      linarith

lemma pairSq_pos (l : List ℚ) (a b : ℚ) (hab : a ≠ b) (ha : a ∈ l) (hb : b ∈ l) :
    0 < pairSq l := by
  induction l with
  | nil => cases ha
  | cons x t ih =>
    have hmapnn : ∀ y ∈ t.map (fun y => (x - y) ^ 2), 0 ≤ y := by
      intro y hy
      obtain ⟨z, _, hz⟩ := List.mem_map.mp hy
      rw [← hz]
      exact sq_nonneg _
    have hpsnn : 0 ≤ pairSq t := pairSq_nonneg t
    have hmap_sum_nn : 0 ≤ (t.map (fun y => (x - y) ^ 2)).sum :=
      List.sum_nonneg hmapnn
    simp only [pairSq]
    rcases List.mem_cons.mp ha with rfl | hat
    · rcases List.mem_cons.mp hb with rfl | hbt
      · exact absurd rfl hab
      · have hterm : 0 < (a - b) ^ 2 :=
          (sq_abs (a - b)) ▸ pow_pos (abs_pos.mpr (sub_ne_zero.mpr hab)) 2
        have hpos := sum_pos_of_mem _ hmapnn ((a - b) ^ 2)
          (List.mem_map_of_mem _ hbt) hterm
        linarith
    · rcases List.mem_cons.mp hb with rfl | hbt
      · have hterm : 0 < (b - a) ^ 2 :=
          (sq_abs (b - a)) ▸ pow_pos (abs_pos.mpr (sub_ne_zero.mpr (Ne.symm hab))) 2
        have hpos := sum_pos_of_mem _ hmapnn ((b - a) ^ 2)
          (List.mem_map_of_mem _ hat) hterm
        linarith
      · have := ih hat hbt
        linarith

lemma sum_affine (c d : ℚ) (xs : List ℚ) :
    (xs.map (fun x => c + d * x)).sum = (xs.length : ℚ) * c + d * xs.sum := by
  induction xs with
  | nil => simp
  | cons x t ih =>
    simp only [List.map_cons, List.sum_cons, List.length_cons, ih]
    push_cast
    ring

lemma sum_affine_x (c d : ℚ) (xs : List ℚ) :
    (xs.map (fun x => x * (c + d * x))).sum =
      c * xs.sum + d * (xs.map (fun x => x ^ 2)).sum := by
  induction xs with
  | nil => simp
  | cons x t ih =>
    simp only [List.map_cons, List.sum_cons, ih]
    ring

lemma cast_sum_int (l : List ℤ) :
    ((l.sum : ℤ) : ℚ) = (l.map (fun z : ℤ => (z : ℚ))).sum := by
  induction l with
  | nil => simp
  | cons x t ih =>
    simp only [List.sum_cons, List.map_cons]
    rw [Int.cast_add, ih]

/-- C8: on input lying exactly on the line fill = a + b * day, with
at least two points and two distinct elapsed-day values, the
regression returns exactly the pair (b, a). -/
theorem linearRegression_exact (records : List DayRecord) (a b : ℚ)
    (hlen : 2 ≤ records.length) (r1 r2 : DayRecord)
    (hr1 : r1 ∈ records) (hr2 : r2 ∈ records)
    (hdist : r1.daysElapsed ≠ r2.daysElapsed)
    (hfit : ∀ r ∈ records, r.full = a + b * (r.daysElapsed : ℚ)) :
    linearRegression records = (b, a) := by
  have hsy : (records.map (fun r => r.full)).sum =
      (records.length : ℚ) * a + b * (records.map (fun r => (r.daysElapsed : ℚ))).sum := by
    have h1 : records.map (fun r => r.full) =
        records.map (fun r => a + b * (r.daysElapsed : ℚ)) :=
      List.map_congr_left hfit
    have h2 : records.map (fun r => a + b * (r.daysElapsed : ℚ)) =
        (records.map (fun r => (r.daysElapsed : ℚ))).map (fun x => a + b * x) := by
      rw [List.map_map]
      rfl
    rw [h1, h2, sum_affine, List.length_map]
  have hsxy : (records.map (fun r => (r.daysElapsed : ℚ) * r.full)).sum =
      a * (records.map (fun r => (r.daysElapsed : ℚ))).sum +
        b * (records.map (fun r => (r.daysElapsed : ℚ) * (r.daysElapsed : ℚ))).sum := by
    have h1 : records.map (fun r => (r.daysElapsed : ℚ) * r.full) =
        records.map (fun r => (r.daysElapsed : ℚ) * (a + b * (r.daysElapsed : ℚ))) :=
      List.map_congr_left (fun r hr => by rw [hfit r hr])
    have h2 : records.map (fun r => (r.daysElapsed : ℚ) * (a + b * (r.daysElapsed : ℚ))) =
        (records.map (fun r => (r.daysElapsed : ℚ))).map (fun x => x * (a + b * x)) := by
      rw [List.map_map]
      rfl
    have h3 : (records.map (fun r => (r.daysElapsed : ℚ) * (r.daysElapsed : ℚ))) =
        (records.map (fun r => (r.daysElapsed : ℚ))).map (fun x => x ^ 2) := by
      rw [List.map_map]
      refine List.map_congr_left ?_
      intro r _
      show (r.daysElapsed : ℚ) * (r.daysElapsed : ℚ) = ((r.daysElapsed : ℚ)) ^ 2
      rw [sq]
    rw [h1, h2, h3, sum_affine_x]
  have hsq : (records.map (fun r => (r.daysElapsed : ℚ) * (r.daysElapsed : ℚ))).sum =
      ((records.map (fun r => (r.daysElapsed : ℚ))).map (fun x => x ^ 2)).sum := by
    have h3 : (records.map (fun r => (r.daysElapsed : ℚ) * (r.daysElapsed : ℚ))) =
        (records.map (fun r => (r.daysElapsed : ℚ))).map (fun x => x ^ 2) := by
      rw [List.map_map]
      refine List.map_congr_left ?_
      intro r _
      show (r.daysElapsed : ℚ) * (r.daysElapsed : ℚ) = ((r.daysElapsed : ℚ)) ^ 2
      rw [sq]
    rw [h3]
  have hdpos : 0 < (records.length : ℚ) *
      (records.map (fun r => (r.daysElapsed : ℚ) * (r.daysElapsed : ℚ))).sum -
      (records.map (fun r => (r.daysElapsed : ℚ))).sum *
        (records.map (fun r => (r.daysElapsed : ℚ))).sum := by
    have hp := pairSq_pos (records.map (fun r => (r.daysElapsed : ℚ)))
      ((r1.daysElapsed : ℚ)) ((r2.daysElapsed : ℚ)) (by exact_mod_cast hdist)
      (List.mem_map_of_mem _ hr1) (List.mem_map_of_mem _ hr2)
    have he := pairSq_eq (records.map (fun r => (r.daysElapsed : ℚ)))
    rw [List.length_map] at he
    have hs : (records.map (fun r => (r.daysElapsed : ℚ))).sum ^ 2 =
        (records.map (fun r => (r.daysElapsed : ℚ))).sum *
          (records.map (fun r => (r.daysElapsed : ℚ))).sum := sq _
    rw [hsq]
    linarith [he, hp, hs.symm.le]
  have hD : ∃ D : ℤ, ((D : ℤ) : ℚ) = (records.length : ℚ) *
      (records.map (fun r => (r.daysElapsed : ℚ) * (r.daysElapsed : ℚ))).sum -
      (records.map (fun r => (r.daysElapsed : ℚ))).sum *
        (records.map (fun r => (r.daysElapsed : ℚ))).sum := by
    refine ⟨(records.length : ℤ) *
      (records.map (fun r => r.daysElapsed * r.daysElapsed)).sum -
      (records.map (fun r => r.daysElapsed)).sum *
        (records.map (fun r => r.daysElapsed)).sum, ?_⟩
    have hc1 : (((records.map (fun r => r.daysElapsed)).sum : ℤ) : ℚ) =
        (records.map (fun r => (r.daysElapsed : ℚ))).sum := by
      rw [cast_sum_int, List.map_map]
      rfl
    have hc2 : (((records.map (fun r => r.daysElapsed * r.daysElapsed)).sum : ℤ) : ℚ) =
        (records.map (fun r => (r.daysElapsed : ℚ) * (r.daysElapsed : ℚ))).sum := by
      rw [cast_sum_int, List.map_map]
      refine congrArg List.sum (List.map_congr_left ?_)
      intro r _
      show ((r.daysElapsed * r.daysElapsed : ℤ) : ℚ) =
        (r.daysElapsed : ℚ) * (r.daysElapsed : ℚ)
      push_cast
      ring
    rw [Int.cast_sub, Int.cast_mul, Int.cast_mul, Int.cast_natCast, hc1, hc2]
  obtain ⟨D, hDeq⟩ := hD
  have hD1 : (1 : ℚ) ≤ (records.length : ℚ) *
      (records.map (fun r => (r.daysElapsed : ℚ) * (r.daysElapsed : ℚ))).sum -
      (records.map (fun r => (r.daysElapsed : ℚ))).sum *
        (records.map (fun r => (r.daysElapsed : ℚ))).sum := by
    rw [← hDeq] at hdpos ⊢
    have hD0 : 0 < D := by exact_mod_cast hdpos
    have hD0' : (1 : ℤ) ≤ D := hD0
    exact_mod_cast hD0'
  have hdne : (records.length : ℚ) *
      (records.map (fun r => (r.daysElapsed : ℚ) * (r.daysElapsed : ℚ))).sum -
      (records.map (fun r => (r.daysElapsed : ℚ))).sum *
        (records.map (fun r => (r.daysElapsed : ℚ))).sum ≠ 0 := ne_of_gt hdpos
  have hn0 : (records.length : ℚ) ≠ 0 := by
    have : 0 < records.length := by omega
    positivity
  simp only [linearRegression]
  rw [if_neg (not_lt.mpr (by exact_mod_cast hlen)), if_neg (by
    rw [abs_of_pos hdpos]
    intro hc
    have : (1 : ℚ) / 10000000000 ≤ 1 := by norm_num
    linarith)]
  have hslope : ((records.length : ℚ) *
        (records.map (fun r => (r.daysElapsed : ℚ) * r.full)).sum -
      (records.map (fun r => (r.daysElapsed : ℚ))).sum *
        (records.map (fun r => r.full)).sum) /
      ((records.length : ℚ) *
        (records.map (fun r => (r.daysElapsed : ℚ) * (r.daysElapsed : ℚ))).sum -
      (records.map (fun r => (r.daysElapsed : ℚ))).sum *
        (records.map (fun r => (r.daysElapsed : ℚ))).sum) = b := by
    rw [hsxy, hsy]
    have key : (records.length : ℚ) *
        (a * (records.map (fun r => (r.daysElapsed : ℚ))).sum +
          b * (records.map (fun r => (r.daysElapsed : ℚ) * (r.daysElapsed : ℚ))).sum) -
        (records.map (fun r => (r.daysElapsed : ℚ))).sum *
          ((records.length : ℚ) * a +
            b * (records.map (fun r => (r.daysElapsed : ℚ))).sum) =
        b * ((records.length : ℚ) *
          (records.map (fun r => (r.daysElapsed : ℚ) * (r.daysElapsed : ℚ))).sum -
          (records.map (fun r => (r.daysElapsed : ℚ))).sum *
            (records.map (fun r => (r.daysElapsed : ℚ))).sum) := by ring
    rw [key, mul_div_assoc, div_self hdne, mul_one]
  rw [hslope]
  have hintercept : ((records.map (fun r => r.full)).sum -
      b * (records.map (fun r => (r.daysElapsed : ℚ))).sum) / (records.length : ℚ) = a := by
    rw [hsy]
    have key2 : (records.length : ℚ) * a +
        b * (records.map (fun r => (r.daysElapsed : ℚ))).sum -
        b * (records.map (fun r => (r.daysElapsed : ℚ))).sum =
        (records.length : ℚ) * a := by ring
    rw [key2, mul_comm, mul_div_assoc, div_self hn0, mul_one]
  rw [hintercept]

/-- Fourteen-point synthetic season lying exactly on fill = 80 - day / 2. -/
def regrExample : List DayRecord :=
  [⟨0, 80, 0, 0, 0, 0, 0⟩, ⟨24, 159/2, 0, 0, 1, 0, 0⟩, ⟨48, 79, 0, 0, 2, 0, 0⟩,
   ⟨72, 157/2, 0, 0, 3, 0, 0⟩, ⟨96, 78, 0, 0, 4, 0, 0⟩, ⟨120, 155/2, 0, 0, 5, 0, 0⟩,
   ⟨144, 77, 0, 0, 6, 0, 0⟩, ⟨168, 153/2, 0, 0, 7, 0, 0⟩, ⟨192, 76, 0, 0, 8, 0, 0⟩,
   ⟨216, 151/2, 0, 0, 9, 0, 0⟩, ⟨240, 75, 0, 0, 10, 0, 0⟩, ⟨264, 149/2, 0, 0, 11, 0, 0⟩,
   ⟨288, 74, 0, 0, 12, 0, 0⟩, ⟨312, 147/2, 0, 0, 13, 0, 0⟩]

/-- Witness for C8: the synthetic 14-point line yields slope -1/2 and
intercept 80 exactly. -/
theorem linearRegression_exact_witness :
    linearRegression regrExample = (-(1/2), 80) :=
  linearRegression_exact regrExample 80 (-(1/2)) (by norm_num [regrExample])
    ⟨0, 80, 0, 0, 0, 0, 0⟩ ⟨24, 159/2, 0, 0, 1, 0, 0⟩
    (by norm_num [regrExample]) (by norm_num [regrExample]) (by norm_num)
    (by
      intro r hr
      simp only [regrExample] at hr
      fin_cases hr <;> norm_num)

lemma generateScenarios_eq (current : List DayRecord)
    (m : ℤ → Option (List DayRecord)) (y : ℤ) (h : trendWindow ≤ current.length) :
    generateScenarios current m y =
      (if (linearRegression (current.drop (current.length - trendWindow))).1 < 0 then
        [linearScenarioOf current, stressScenarioOf current]
      else []) ++ historyScenarios current m y := by
  unfold generateScenarios
  rw [if_neg (not_lt.mpr h)]

lemma historyScenarios_name (current : List DayRecord)
    (m : ℤ → Option (List DayRecord)) (y : ℤ) :
    ∀ s ∈ historyScenarios current m y, s.name = "History" := by
  intro s hs
  unfold historyScenarios at hs
  cases hm : m (y - 1) with
  | none => rw [hm] at hs; cases hs
  | some recs =>
    rw [hm] at hs
    dsimp only at hs
    split_ifs at hs with h1 h2
    · simp only [List.mem_singleton] at hs
      rw [hs]
    · cases hs
    · cases hs

lemma histLoop_some (cd : ℤ) (cv : ℚ) : ∀ (recs : List DayRecord) (b : ℚ),
    histLoop cd cv recs (some b) =
      (recs.filter (fun r => decide (cd < r.daysElapsed))).map
        (fun r => ⟨(r.daysElapsed : ℚ), cv + (r.full - b), r.date⟩) := by
  intro recs
  induction recs with
  | nil => intro b; simp [histLoop]
  | cons r rest ih =>
    intro b
    by_cases hlt : cd < r.daysElapsed
    · simp only [histLoop, if_pos hlt, Option.getD_some]
      rw [ih]
      simp [List.filter_cons, hlt]
    · simp only [histLoop, if_neg hlt]
      rw [ih]
      simp [List.filter_cons, hlt]

lemma histLoop_none (cd : ℤ) (cv : ℚ) : ∀ (recs : List DayRecord),
    histLoop cd cv recs none =
      (recs.filter (fun r => decide (cd < r.daysElapsed))).map
        (fun r => ⟨(r.daysElapsed : ℚ),
          cv + (r.full -
            ((recs.filter (fun r => decide (cd < r.daysElapsed))).headD default).full),
          r.date⟩) := by
  intro recs
  induction recs with
  | nil => simp [histLoop]
  | cons r rest ih =>
    by_cases hlt : cd < r.daysElapsed
    · simp only [histLoop, if_pos hlt, Option.getD_none]
      rw [histLoop_some cd cv rest r.full]
      simp [List.filter_cons, hlt]
    · simp only [histLoop, if_neg hlt]
      rw [ih]
      simp [List.filter_cons, hlt]

/-- C5: with at least a trailing window of current records, a
non-negative trailing slope emits neither the Linear nor the Stress
scenario; a negative slope emits a Linear scenario whose construction
uses exactly days = (threshold - current fill) / slope, with whole
days remaining int(days), and a Stress scenario built identically
from the slope multiplied by the stress factor. -/
theorem scenario_slope_gate (current : List DayRecord)
    (m : ℤ → Option (List DayRecord)) (y : ℤ) (h : trendWindow ≤ current.length) :
    let slope := (linearRegression (current.drop (current.length - trendWindow))).1
    let cur := (current.getLastD default).full
    let lastDate := (current.getLastD default).date
    let currentDay := (current.getLastD default).daysElapsed
    let days := (criticalThreshold - cur) / slope
    let ss := slope * stressMultiplier
    let sd := (criticalThreshold - cur) / ss
    (0 ≤ slope → ∀ s ∈ generateScenarios current m y,
      s.name ≠ "Linear" ∧ s.name ≠ "Stress") ∧
    (slope < 0 →
      (∃ s ∈ generateScenarios current m y, s.name = "Linear" ∧ s.slope = slope ∧
        s.daysLeft = ratTruncInt days ∧
        s.hitTime = some (lastDate + ((ratTruncInt (days * 24) : ℤ) : ℚ)) ∧
        s.points = makeProjectionPoints currentDay cur slope days lastDate 50) ∧
      (∃ s ∈ generateScenarios current m y, s.name = "Stress" ∧ s.slope = ss ∧
        s.daysLeft = ratTruncInt sd ∧
        s.hitTime = some (lastDate + ((ratTruncInt (sd * 24) : ℤ) : ℚ)) ∧
        s.points = makeProjectionPoints currentDay cur ss sd lastDate 50)) := by
  intro slope cur lastDate currentDay days ss sd
  rw [generateScenarios_eq current m y h]
  constructor
  · intro h0 s hs
    rw [if_neg (not_lt.mpr h0)] at hs
    rw [List.nil_append] at hs
    have := historyScenarios_name current m y s hs
    rw [this]
    exact ⟨by decide, by decide⟩
  · intro hneg
    rw [if_pos hneg]
    constructor
    · refine ⟨linearScenarioOf current, ?_, rfl, rfl, rfl, rfl, rfl⟩
      exact List.mem_append_left _ (List.mem_cons_self _ _)
    · refine ⟨stressScenarioOf current, ?_, rfl, rfl, rfl, rfl, rfl⟩
      exact List.mem_append_left _
        (List.mem_cons_of_mem _ (List.mem_cons_self _ _))

lemma regrExample_slope :
    (linearRegression (regrExample.drop (regrExample.length - trendWindow))).1 =
      -(1 / 2) := by
  norm_num [linearRegression, regrExample, trendWindow]

/-- Witness for C5: the synthetic declining season produces the
Linear and the Stress scenarios. -/
theorem scenario_slope_gate_witness :
    (∃ s ∈ generateScenarios regrExample (fun _ => none) 2025, s.name = "Linear") ∧
    (∃ s ∈ generateScenarios regrExample (fun _ => none) 2025, s.name = "Stress") := by
  have h := scenario_slope_gate regrExample (fun _ => none) 2025
    (by norm_num [regrExample, trendWindow])
  have hneg : (linearRegression (regrExample.drop (regrExample.length - trendWindow))).1
      < 0 := by
    rw [regrExample_slope]
    norm_num
  obtain ⟨hl, hr⟩ := h.2 hneg
  obtain ⟨s1, hs1, hn1, _⟩ := hl
  obtain ⟨s2, hs2, hn2, _⟩ := hr
  exact ⟨⟨s1, hs1, hn1⟩, ⟨s2, hs2, hn2⟩⟩

/-- C6: the historical-analog scenario. When the season preceding the
current start year has no record past the current elapsed day (it is
absent, empty, or exhausted), no History scenario is emitted; when it
does, the History scenario carries exactly one point per such record,
in order, each fill shifted by the offset between the current fill
and the first historical fill after the current day, so its first
point equals the current fill exactly. -/
theorem history_scenario (current : List DayRecord)
    (m : ℤ → Option (List DayRecord)) (y : ℤ) (h : trendWindow ≤ current.length) :
    let cur := (current.getLastD default).full
    let currentDay := (current.getLastD default).daysElapsed
    let beyond := ((m (y - 1)).getD []).filter (fun r => decide (currentDay < r.daysElapsed))
    (beyond = [] → ∀ s ∈ generateScenarios current m y, s.name ≠ "History") ∧
    (beyond ≠ [] →
      ∃ s ∈ generateScenarios current m y, s.name = "History" ∧
        s.points = beyond.map (fun r =>
          ⟨(r.daysElapsed : ℚ), cur + (r.full - (beyond.headD default).full), r.date⟩) ∧
        s.points.length = beyond.length ∧
        (s.points.headD default).y = cur) := by
  dsimp only
  rw [generateScenarios_eq current m y h]
  cases hm : m (y - 1) with
  | none =>
    simp only [Option.getD_none, List.filter_nil]
    constructor
    · intro _ s hs
      rw [List.mem_append] at hs
      rcases hs with hs | hs
      · split_ifs at hs
        · simp only [List.mem_cons, List.not_mem_nil, or_false] at hs
          rcases hs with rfl | rfl
          · simp [linearScenarioOf]
          · simp [stressScenarioOf]
        · cases hs
      · unfold historyScenarios at hs
        rw [hm] at hs
        cases hs
    · intro hb
      exact absurd rfl hb
  | some recs =>
    simp only [Option.getD_some]
    constructor
    · intro hb s hs
      rw [List.mem_append] at hs
      rcases hs with hs | hs
      · split_ifs at hs
        · simp only [List.mem_cons, List.not_mem_nil, or_false] at hs
          rcases hs with rfl | rfl
          · simp [linearScenarioOf]
          · simp [stressScenarioOf]
        · cases hs
      · exfalso
        unfold historyScenarios at hs
        rw [hm] at hs
        dsimp only at hs
        split_ifs at hs with h1 h2
        · apply h2
          rw [histLoop_none, hb]
          rfl
        · cases hs
        · cases hs
    · intro hb
      have hrne : recs.length ≠ 0 := by
        intro hre
        rw [List.length_eq_zero] at hre
        rw [hre] at hb
        simp at hb
      have hptsne : (histLoop (current.getLastD default).daysElapsed
          (current.getLastD default).full recs none).length ≠ 0 := by
        rw [histLoop_none, List.length_map]
        intro hfe
        rw [List.length_eq_zero] at hfe
        exact hb hfe
      refine ⟨⟨"History", histLoop (current.getLastD default).daysElapsed
        (current.getLastD default).full recs none, none, 0, 0⟩, ?_, rfl, ?_, ?_, ?_⟩
      · apply List.mem_append_right
        unfold historyScenarios
        rw [hm]
        dsimp only
        rw [if_pos hrne, if_pos hptsne]
        exact List.mem_singleton.mpr rfl
      · exact histLoop_none _ _ recs
      · show (histLoop _ _ recs none).length = _
        rw [histLoop_none, List.length_map]
      · show ((histLoop _ _ recs none).headD default).y = _
        rw [histLoop_none]
        obtain ⟨b0, t0, hbt⟩ : ∃ b0 t0,
            recs.filter (fun r => decide ((current.getLastD default).daysElapsed <
              r.daysElapsed)) = b0 :: t0 := by
          cases hfe : recs.filter (fun r =>
              decide ((current.getLastD default).daysElapsed < r.daysElapsed)) with
          | nil => exact absurd hfe hb
          | cons b t => exact ⟨b, t, rfl⟩
        rw [hbt]
        simp

/-- Preceding-season records extending past day 13, for the C6
witness. -/
def histExample : List DayRecord :=
  [⟨336, 70, 0, 0, 14, 0, 0⟩, ⟨360, 69, 0, 0, 15, 0, 0⟩]

/-- Witness for C6: with a preceding season holding records beyond
the current day, the History scenario is emitted and starts exactly
at the current fill. -/
theorem history_scenario_witness :
    ∃ s ∈ generateScenarios regrExample
        (fun z => if z = 2024 then some histExample else none) 2025,
      s.name = "History" ∧
        (s.points.headD default).y = (regrExample.getLastD default).full := by
  have h := history_scenario regrExample
    (fun z => if z = 2024 then some histExample else none) 2025
    (by norm_num [regrExample, trendWindow])
  have hb : (((fun z : ℤ => if z = 2024 then some histExample else none) (2025 - 1)).getD
      []).filter (fun r => decide ((regrExample.getLastD default).daysElapsed <
        r.daysElapsed)) ≠ [] := by
    norm_num [histExample, regrExample, List.filter_cons]
    exact List.cons_ne_nil _ _
  obtain ⟨s, hs, hname, _, _, hy⟩ := h.2 hb
  exact ⟨s, hs, hname, hy⟩

lemma makeProjectionPoints_last (startDay : ℤ) (sv sl td t0 : ℚ) (n : ℕ)
    (hn : 2 ≤ n) :
    ((makeProjectionPoints startDay sv sl td t0 n).getLastD default).x =
      (startDay : ℚ) + td := by
  obtain ⟨k, rfl⟩ : ∃ k, n = k + 1 := ⟨n - 1, by omega⟩
  unfold makeProjectionPoints
  rw [List.range_succ, List.map_append]
  simp only [List.map_cons, List.map_nil, List.getLastD_concat]
  have hk0 : ((k : ℚ)) ≠ 0 := by
    have : 1 ≤ k := by omega
    positivity
  show (startDay : ℚ) + td * (k : ℚ) / ((k + 1 - 1 : ℕ) : ℚ) = (startDay : ℚ) + td
  simp only [Nat.add_sub_cancel]
  rw [mul_div_assoc, div_self hk0, mul_one]

/-- C10 amended: whenever the trailing slope is negative, the Stress
scenario is built from the Linear slope times the stress multiplier,
its raw crossing offset (the last projected x minus the current day)
is the Linear one divided by the multiplier, and when the current
fill exceeds the critical threshold the Stress crossing is strictly
sooner; with current fill at or below the threshold the raw crossing
offsets are non-positive and the Stress one is not sooner, see the
counterexample. -/
theorem stress_vs_linear (current : List DayRecord)
    (m : ℤ → Option (List DayRecord)) (y : ℤ) (h : trendWindow ≤ current.length)
    (hneg : (linearRegression (current.drop (current.length - trendWindow))).1 < 0) :
    let slope := (linearRegression (current.drop (current.length - trendWindow))).1
    let cur := (current.getLastD default).full
    let days := (criticalThreshold - cur) / slope
    let ss := slope * stressMultiplier
    let sd := (criticalThreshold - cur) / ss
    ∃ sL ∈ generateScenarios current m y, ∃ sS ∈ generateScenarios current m y,
      sL.name = "Linear" ∧ sS.name = "Stress" ∧
      sS.slope = sL.slope * stressMultiplier ∧
      sd = days / stressMultiplier ∧
      (sL.points.getLastD default).x =
        ((current.getLastD default).daysElapsed : ℚ) + days ∧
      (sS.points.getLastD default).x =
        ((current.getLastD default).daysElapsed : ℚ) + sd ∧
      (criticalThreshold < cur → sd < days) := by
  dsimp only
  rw [generateScenarios_eq current m y h, if_pos hneg]
  refine ⟨linearScenarioOf current,
    List.mem_append_left _ (List.mem_cons_self _ _),
    stressScenarioOf current,
    List.mem_append_left _ (List.mem_cons_of_mem _ (List.mem_cons_self _ _)),
    rfl, rfl, rfl, ?_, ?_, ?_, ?_⟩
  · rw [div_div]
  · exact makeProjectionPoints_last _ _ _ _ _ 50 (by norm_num)
  · exact makeProjectionPoints_last _ _ _ _ _ 50 (by norm_num)
  · intro hcur
    have hdays : 0 < (criticalThreshold - (current.getLastD default).full) /
        (linearRegression (current.drop (current.length - trendWindow))).1 :=
      div_pos_of_neg_of_neg (by linarith) hneg
    rw [← div_div]
    exact div_lt_self hdays (by norm_num [stressMultiplier])

/-- Witness for C10 on the synthetic declining season whose current
fill is above the critical threshold. -/
theorem stress_vs_linear_witness :
    ∃ sL ∈ generateScenarios regrExample (fun _ => none) 2025,
      ∃ sS ∈ generateScenarios regrExample (fun _ => none) 2025,
        sL.name = "Linear" ∧ sS.name = "Stress" ∧
        sS.slope = sL.slope * stressMultiplier := by
  have h := stress_vs_linear regrExample (fun _ => none) 2025
    (by norm_num [regrExample, trendWindow])
    (by rw [regrExample_slope]; norm_num)
  obtain ⟨sL, hL, sS, hS, hn1, hn2, hsl, _⟩ := h
  exact ⟨sL, hL, sS, hS, hn1, hn2, hsl⟩

/-- Fourteen-point season lying on fill = 9 - day / 2, already below
the critical threshold at the last record. -/
def declineExample : List DayRecord :=
  [⟨0, 9, 0, 0, 0, 0, 0⟩, ⟨24, 17/2, 0, 0, 1, 0, 0⟩, ⟨48, 8, 0, 0, 2, 0, 0⟩,
   ⟨72, 15/2, 0, 0, 3, 0, 0⟩, ⟨96, 7, 0, 0, 4, 0, 0⟩, ⟨120, 13/2, 0, 0, 5, 0, 0⟩,
   ⟨144, 6, 0, 0, 6, 0, 0⟩, ⟨168, 11/2, 0, 0, 7, 0, 0⟩, ⟨192, 5, 0, 0, 8, 0, 0⟩,
   ⟨216, 9/2, 0, 0, 9, 0, 0⟩, ⟨240, 4, 0, 0, 10, 0, 0⟩, ⟨264, 7/2, 0, 0, 11, 0, 0⟩,
   ⟨288, 3, 0, 0, 12, 0, 0⟩, ⟨312, 5/2, 0, 0, 13, 0, 0⟩]

lemma declineExample_slope :
    (linearRegression (declineExample.drop (declineExample.length - trendWindow))).1 =
      -(1 / 2) := by
  norm_num [linearRegression, declineExample, trendWindow]

/-- Counterexample for C10 as stated: on a season already below the
critical threshold and still declining, both scenarios are emitted
with negative raw crossing offsets, the Linear curve ends at day
13 - 15 = -2 and the Stress curve at day 13 - 12 = 1, so the Stress
crossing is not strictly sooner than the Linear one. -/
theorem stress_not_sooner_cex :
    ∃ sL ∈ generateScenarios declineExample (fun _ => none) 2025,
      ∃ sS ∈ generateScenarios declineExample (fun _ => none) 2025,
        sL.name = "Linear" ∧ sS.name = "Stress" ∧
        (sL.points.getLastD default).x = -2 ∧
        (sS.points.getLastD default).x = 1 ∧
        ¬ ((sS.points.getLastD default).x < (sL.points.getLastD default).x) := by
  have hneg : (linearRegression (declineExample.drop
      (declineExample.length - trendWindow))).1 < 0 := by
    rw [declineExample_slope]
    norm_num
  have hgen := generateScenarios_eq declineExample (fun _ => none) 2025
    (by norm_num [declineExample, trendWindow])
  rw [if_pos hneg] at hgen
  have hhist : historyScenarios declineExample (fun _ : ℤ => none) 2025 = [] := rfl
  rw [hhist, List.append_nil] at hgen
  have hLx : ((linearScenarioOf declineExample).points.getLastD default).x = -2 := by
    unfold linearScenarioOf
    dsimp only
    rw [makeProjectionPoints_last _ _ _ _ _ 50 (by norm_num), declineExample_slope]
    norm_num [declineExample, criticalThreshold]
  have hSx : ((stressScenarioOf declineExample).points.getLastD default).x = 1 := by
    unfold stressScenarioOf
    dsimp only
    rw [makeProjectionPoints_last _ _ _ _ _ 50 (by norm_num), declineExample_slope]
    norm_num [declineExample, criticalThreshold, stressMultiplier]
  refine ⟨linearScenarioOf declineExample, by rw [hgen]; exact List.mem_cons_self _ _,
    stressScenarioOf declineExample,
    by rw [hgen]; exact List.mem_cons_of_mem _ (List.mem_cons_self _ _),
    rfl, rfl, hLx, hSx, ?_⟩
  rw [hLx, hSx]
  norm_num

/-- Program counter of one handleAPI caller: initial Get, waiting on
the building mutex, holding it before the re-check, building the
dashboard, done with a dashboard response value, or finished with the
error response after a failed build (the buildDashboard error branch
responds with the error payload and publishes nothing). -/
inductive PC (D : Type) where
  | start
  | waiting
  | entered
  | building
  | done (r : D)
  | failed
deriving DecidableEq

/-- Global state of the single-flight system: what a Get returns
during the burst (the data published so far; time is frozen during a
simultaneous burst so freshness cannot lapse), the holder of the
building mutex, the count of build entries (the counted build-entry
side effect of the spec), and every caller counter. -/
structure SysState (N : ℕ) (D : Type) where
  cacheData : Option D
  lock : Option (Fin N)
  builds : ℕ
  pcs : Fin N → PC D

/-- Interleaving semantics of handleAPI for N concurrent callers,
with d the result a successful build produces: the initial cache.Get
hit and miss, acquiring cache.building, the re-check hit (another
holder just finished) and miss (enter the build, counted), and the
two outcomes of buildDashboard: publishing the result via cache.Set
before releasing, or failing, in which case the caller responds with
the error payload and the deferred unlock releases the gate with
nothing published. -/
inductive SfStep {N : ℕ} {D : Type} (d : D) : SysState N D → SysState N D → Prop where
  | getHit (s : SysState N D) (i : Fin N) (v : D) (hpc : s.pcs i = PC.start)
      (hc : s.cacheData = some v) :
      SfStep d s { s with pcs := Function.update s.pcs i (PC.done v) }
  | getMiss (s : SysState N D) (i : Fin N) (hpc : s.pcs i = PC.start)
      (hc : s.cacheData = none) :
      SfStep d s { s with pcs := Function.update s.pcs i PC.waiting }
  | acquire (s : SysState N D) (i : Fin N) (hpc : s.pcs i = PC.waiting)
      (hl : s.lock = none) :
      SfStep d s { s with lock := some i, pcs := Function.update s.pcs i PC.entered }
  | recheckHit (s : SysState N D) (i : Fin N) (v : D) (hpc : s.pcs i = PC.entered)
      (hc : s.cacheData = some v) :
      SfStep d s { s with lock := none, pcs := Function.update s.pcs i (PC.done v) }
  | recheckMiss (s : SysState N D) (i : Fin N) (hpc : s.pcs i = PC.entered)
      (hc : s.cacheData = none) :
      SfStep d s
        { s with builds := s.builds + 1, pcs := Function.update s.pcs i PC.building }
  | publish (s : SysState N D) (i : Fin N) (hpc : s.pcs i = PC.building) :
      SfStep d s
        { s with cacheData := some d, lock := none, pcs := Function.update s.pcs i (PC.done d) }
  | buildFail (s : SysState N D) (i : Fin N) (hpc : s.pcs i = PC.building) :
      SfStep d s { s with lock := none, pcs := Function.update s.pcs i PC.failed }

/-- All N callers start before their initial Get against a cache they
will miss. -/
def sfInit (N : ℕ) (D : Type) : SysState N D := ⟨none, none, 0, fun _ => PC.start⟩

/-- States the burst can reach by interleaving the callers. -/
def Reachable {N : ℕ} {D : Type} (d : D) (s : SysState N D) : Prop :=
  Relation.ReflTransGen (SfStep d) (sfInit N D) s

/-- Inductive invariant of the single-flight system: the mutex is
held by anyone past the acquire; the cache only ever holds the build
result; while no build has failed at most one build is counted; a
zero count means nothing is published and nobody is building, done or
failed; a positive count means the result is published, a build is in
flight, or some build already failed; and every caller finished with
data holds the build result. -/
def SfInv {N : ℕ} {D : Type} (d : D) (s : SysState N D) : Prop :=
  (∀ i, s.pcs i = PC.entered ∨ s.pcs i = PC.building → s.lock = some i) ∧
  (∀ v, s.cacheData = some v → v = d) ∧
  ((∀ i, s.pcs i ≠ PC.failed) → s.builds ≤ 1) ∧
  (s.builds = 0 → s.cacheData = none ∧
    ∀ i, s.pcs i ≠ PC.building ∧ (∀ r, s.pcs i ≠ PC.done r) ∧ s.pcs i ≠ PC.failed) ∧
  (1 ≤ s.builds → s.cacheData = some d ∨ (∃ j, s.pcs j = PC.building) ∨
    (∃ j, s.pcs j = PC.failed)) ∧
  (∀ i r, s.pcs i = PC.done r → r = d)

lemma sfInv_init (N : ℕ) (D : Type) (d : D) : SfInv d (sfInit N D) := by
  refine ⟨?_, ?_, ?_, ?_, ?_, ?_⟩ <;> simp [sfInit]

lemma sfInv_step {N : ℕ} {D : Type} {d : D} {s s' : SysState N D}
    (hinv : SfInv d s) (hstep : SfStep d s s') : SfInv d s' := by
  obtain ⟨hI1, hI2, hI3, hI4, hI5, hI6⟩ := hinv
  cases hstep with
  | getHit i v hpc hc =>
    refine ⟨?_, hI2, ?_, ?_, ?_, ?_⟩
    · intro j hj
      dsimp only at hj ⊢
      by_cases hij : j = i
      · subst hij
        rw [Function.update_same] at hj
        rcases hj with hj | hj <;> cases hj
      · rw [Function.update_noteq hij] at hj
        exact hI1 j hj
    · intro hnf
      dsimp only
      apply hI3
      intro j hfj
      by_cases hij : j = i
      · subst hij
        rw [hpc] at hfj
        cases hfj
      · exact hnf j (by dsimp only; rw [Function.update_noteq hij]; exact hfj)
    · intro h0
      exfalso
      rw [(hI4 h0).1] at hc
      cases hc
    · intro h1
      dsimp only at h1 ⊢
      rcases hI5 h1 with hcd | ⟨j, hj⟩ | ⟨j, hj⟩
      · exact Or.inl hcd
      · refine Or.inr (Or.inl ⟨j, ?_⟩)
        have hij : j ≠ i := by
          intro he
          subst he
          rw [hpc] at hj
          cases hj
        rw [Function.update_noteq hij]
        exact hj
      · refine Or.inr (Or.inr ⟨j, ?_⟩)
        have hij : j ≠ i := by
          intro he
          subst he
          rw [hpc] at hj
          cases hj
        rw [Function.update_noteq hij]
        exact hj
    · intro j r hjr
      dsimp only at hjr
      by_cases hij : j = i
      · subst hij
        rw [Function.update_same] at hjr
        simp only [PC.done.injEq] at hjr
        rw [← hjr]
        exact hI2 v hc
      · rw [Function.update_noteq hij] at hjr
        exact hI6 j r hjr
  | getMiss i hpc hc =>
    refine ⟨?_, hI2, ?_, ?_, ?_, ?_⟩
    · intro j hj
      dsimp only at hj ⊢
      by_cases hij : j = i
      · subst hij
        rw [Function.update_same] at hj
        rcases hj with hj | hj <;> cases hj
      · rw [Function.update_noteq hij] at hj
        exact hI1 j hj
    · intro hnf
      dsimp only
      apply hI3
      intro j hfj
      by_cases hij : j = i
      · subst hij
        rw [hpc] at hfj
        cases hfj
      · exact hnf j (by dsimp only; rw [Function.update_noteq hij]; exact hfj)
    · intro h0
      refine ⟨hc, ?_⟩
      intro j
      dsimp only
      by_cases hij : j = i
      · subst hij
        rw [Function.update_same]
        exact ⟨by simp, fun r => by simp, by simp⟩
      · rw [Function.update_noteq hij]
        exact (hI4 h0).2 j
    · intro h1
      dsimp only at h1 ⊢
      rcases hI5 h1 with hcd | ⟨j, hj⟩ | ⟨j, hj⟩
      · exact Or.inl hcd
      · refine Or.inr (Or.inl ⟨j, ?_⟩)
        have hij : j ≠ i := by
          intro he
          subst he
          rw [hpc] at hj
          cases hj
        rw [Function.update_noteq hij]
        exact hj
      · refine Or.inr (Or.inr ⟨j, ?_⟩)
        have hij : j ≠ i := by
          intro he
          subst he
          rw [hpc] at hj
          cases hj
        rw [Function.update_noteq hij]
        exact hj
    · intro j r hjr
      dsimp only at hjr
      by_cases hij : j = i
      · subst hij
        rw [Function.update_same] at hjr
        cases hjr
      · rw [Function.update_noteq hij] at hjr
        exact hI6 j r hjr
  | acquire i hpc hl =>
    refine ⟨?_, hI2, ?_, ?_, ?_, ?_⟩
    · intro j hj
      dsimp only at hj ⊢
      by_cases hij : j = i
      · subst hij
        rfl
      · rw [Function.update_noteq hij] at hj
        have := hI1 j hj
        rw [hl] at this
        cases this
    · intro hnf
      dsimp only
      apply hI3
      intro j hfj
      by_cases hij : j = i
      · subst hij
        rw [hpc] at hfj
        cases hfj
      · exact hnf j (by dsimp only; rw [Function.update_noteq hij]; exact hfj)
    · intro h0
      refine ⟨(hI4 h0).1, ?_⟩
      intro j
      dsimp only
      by_cases hij : j = i
      · subst hij
        rw [Function.update_same]
        exact ⟨by simp, fun r => by simp, by simp⟩
      · rw [Function.update_noteq hij]
        exact (hI4 h0).2 j
    · intro h1
      dsimp only at h1 ⊢
      rcases hI5 h1 with hcd | ⟨j, hj⟩ | ⟨j, hj⟩
      · exact Or.inl hcd
      · refine Or.inr (Or.inl ⟨j, ?_⟩)
        have hij : j ≠ i := by
          intro he
          subst he
          rw [hpc] at hj
          cases hj
        rw [Function.update_noteq hij]
        exact hj
      · refine Or.inr (Or.inr ⟨j, ?_⟩)
        have hij : j ≠ i := by
          intro he
          subst he
          rw [hpc] at hj
          cases hj
        rw [Function.update_noteq hij]
        exact hj
    · intro j r hjr
      dsimp only at hjr
      by_cases hij : j = i
      · subst hij
        rw [Function.update_same] at hjr
        cases hjr
      · rw [Function.update_noteq hij] at hjr
        exact hI6 j r hjr
  | recheckHit i v hpc hc =>
    refine ⟨?_, hI2, ?_, ?_, ?_, ?_⟩
    · intro j hj
      dsimp only at hj
      by_cases hij : j = i
      · subst hij
        rw [Function.update_same] at hj
        rcases hj with hj | hj <;> cases hj
      · rw [Function.update_noteq hij] at hj
        exfalso
        have h1 := hI1 j hj
        have h2 := hI1 i (Or.inl hpc)
        rw [h1] at h2
        exact hij (Option.some.inj h2)
    · intro hnf
      dsimp only
      apply hI3
      intro j hfj
      by_cases hij : j = i
      · subst hij
        rw [hpc] at hfj
        cases hfj
      · exact hnf j (by dsimp only; rw [Function.update_noteq hij]; exact hfj)
    · intro h0
      exfalso
      rw [(hI4 h0).1] at hc
      cases hc
    · intro h1
      dsimp only at h1 ⊢
      rcases hI5 h1 with hcd | ⟨j, hj⟩ | ⟨j, hj⟩
      · exact Or.inl hcd
      · refine Or.inr (Or.inl ⟨j, ?_⟩)
        have hij : j ≠ i := by
          intro he
          subst he
          rw [hpc] at hj
          cases hj
        rw [Function.update_noteq hij]
        exact hj
      · refine Or.inr (Or.inr ⟨j, ?_⟩)
        have hij : j ≠ i := by
          intro he
          subst he
          rw [hpc] at hj
          cases hj
        rw [Function.update_noteq hij]
        exact hj
    · intro j r hjr
      dsimp only at hjr
      by_cases hij : j = i
      · subst hij
        rw [Function.update_same] at hjr
        simp only [PC.done.injEq] at hjr
        rw [← hjr]
        exact hI2 v hc
      · rw [Function.update_noteq hij] at hjr
        exact hI6 j r hjr
  | recheckMiss i hpc hc =>
    refine ⟨?_, hI2, ?_, ?_, ?_, ?_⟩
    · intro j hj
      dsimp only at hj ⊢
      by_cases hij : j = i
      · subst hij
        exact hI1 j (Or.inl hpc)
      · rw [Function.update_noteq hij] at hj
        exact hI1 j hj
    · intro hnf
      dsimp only at hnf ⊢
      have hnfs : ∀ j, s.pcs j ≠ PC.failed := by
        intro j hfj
        by_cases hij : j = i
        · subst hij
          rw [hpc] at hfj
          cases hfj
        · exact hnf j (by rw [Function.update_noteq hij]; exact hfj)
      have hb0 : s.builds = 0 := by
        by_contra hb
        have h1 : 1 ≤ s.builds := by omega
        rcases hI5 h1 with hcd | ⟨j, hj⟩ | ⟨j, hj⟩
        · rw [hc] at hcd
          cases hcd
        · have hj1 := hI1 j (Or.inr hj)
          have hi1 := hI1 i (Or.inl hpc)
          rw [hj1] at hi1
          have hji : j = i := Option.some.inj hi1
          subst hji
          rw [hpc] at hj
          cases hj
        · exact hnfs j hj
      omega
    · intro h0
      dsimp only at h0
      omega
    · intro _
      refine Or.inr (Or.inl ⟨i, ?_⟩)
      dsimp only
      rw [Function.update_same]
    · intro j r hjr
      dsimp only at hjr
      by_cases hij : j = i
      · subst hij
        rw [Function.update_same] at hjr
        cases hjr
      · rw [Function.update_noteq hij] at hjr
        exact hI6 j r hjr
  | publish i hpc =>
    refine ⟨?_, ?_, ?_, ?_, ?_, ?_⟩
    · intro j hj
      dsimp only at hj
      by_cases hij : j = i
      · subst hij
        rw [Function.update_same] at hj
        rcases hj with hj | hj <;> cases hj
      · rw [Function.update_noteq hij] at hj
        exfalso
        have h1 := hI1 j hj
        have h2 := hI1 i (Or.inr hpc)
        rw [h1] at h2
        exact hij (Option.some.inj h2)
    · intro v hv
      dsimp only at hv
      exact (Option.some.inj hv).symm
    · intro hnf
      dsimp only
      apply hI3
      intro j hfj
      by_cases hij : j = i
      · subst hij
        rw [hpc] at hfj
        cases hfj
      · exact hnf j (by dsimp only; rw [Function.update_noteq hij]; exact hfj)
    · intro h0
      exfalso
      exact ((hI4 h0).2 i).1 hpc
    · intro _
      exact Or.inl rfl
    · intro j r hjr
      dsimp only at hjr
      by_cases hij : j = i
      · subst hij
        rw [Function.update_same] at hjr
        simp only [PC.done.injEq] at hjr
        exact hjr.symm
      · rw [Function.update_noteq hij] at hjr
        exact hI6 j r hjr
  | buildFail i hpc =>
    refine ⟨?_, hI2, ?_, ?_, ?_, ?_⟩
    · intro j hj
      dsimp only at hj
      by_cases hij : j = i
      · subst hij
        rw [Function.update_same] at hj
        rcases hj with hj | hj <;> cases hj
      · rw [Function.update_noteq hij] at hj
        exfalso
        have h1 := hI1 j hj
        have h2 := hI1 i (Or.inr hpc)
        rw [h1] at h2
        exact hij (Option.some.inj h2)
    · intro hnf
      exfalso
      exact hnf i (by dsimp only; rw [Function.update_same])
    · intro h0
      exfalso
      exact ((hI4 h0).2 i).1 hpc
    · intro h1
      refine Or.inr (Or.inr ⟨i, ?_⟩)
      dsimp only
      rw [Function.update_same]
    · intro j r hjr
      dsimp only at hjr
      by_cases hij : j = i
      · subst hij
        rw [Function.update_same] at hjr
        cases hjr
      · rw [Function.update_noteq hij] at hjr
        exact hI6 j r hjr

lemma sfInv_reachable {N : ℕ} {D : Type} (d : D) (s : SysState N D)
    (h : Reachable d s) : SfInv d s := by
  induction h with
  | refl => exact sfInv_init N D d
  | tail _ hbc ih => exact sfInv_step ih hbc

/-- C2 amended: single-flight build with the buildDashboard failure
branch modelled. In every reachable state of a burst of N
simultaneous cache-miss callers, at most one caller is ever inside a
build (the exclusive gate); every caller that finishes with data
holds the same build result d; at most one build is counted as long
as no build has failed; and whenever all N callers (N positive)
finish with data, so that no build in the burst failed, exactly one
dashboard build has executed. The unconditional exactly-one-build
statement of the original claim fails once a build can fail, because
the error response releases the gate with nothing published and a
later miss-caller builds again, see the counterexample. -/
theorem singleFlight_contract {D : Type} (d : D) {N : ℕ} (s : SysState N D)
    (h : Reachable d s) :
    (∀ i j, s.pcs i = PC.building → s.pcs j = PC.building → i = j) ∧
    ((∀ i, s.pcs i ≠ PC.failed) → s.builds ≤ 1) ∧
    (∀ i r, s.pcs i = PC.done r → r = d) ∧
    ((∀ i, ∃ r, s.pcs i = PC.done r) → 0 < N → s.builds = 1) := by
  obtain ⟨hI1, hI2, hI3, hI4, hI5, hI6⟩ := sfInv_reachable d s h
  refine ⟨?_, hI3, hI6, ?_⟩
  · intro i j hi hj
    have h1 := hI1 i (Or.inr hi)
    have h2 := hI1 j (Or.inr hj)
    rw [h1] at h2
    exact Option.some.inj h2
  · intro hall hN
    have hnf : ∀ i, s.pcs i ≠ PC.failed := by
      intro i hfi
      obtain ⟨r, hr⟩ := hall i
      rw [hr] at hfi
      cases hfi
    have hle := hI3 hnf
    obtain ⟨r, hr⟩ := hall ⟨0, hN⟩
    rcases Nat.eq_zero_or_pos s.builds with h0 | h1
    · exact absurd hr (((hI4 h0).2 ⟨0, hN⟩).2.1 r)
    · omega

/-- Concrete two-caller burst: both miss, caller 0 builds and
publishes 7, caller 1 re-checks and is served from the cache. -/
def sfS1 : SysState 2 ℕ :=
  { sfInit 2 ℕ with pcs := Function.update (sfInit 2 ℕ).pcs 0 PC.waiting }

def sfS2 : SysState 2 ℕ := { sfS1 with pcs := Function.update sfS1.pcs 1 PC.waiting }

def sfS3 : SysState 2 ℕ :=
  { sfS2 with lock := some 0, pcs := Function.update sfS2.pcs 0 PC.entered }

def sfS4 : SysState 2 ℕ :=
  { sfS3 with builds := sfS3.builds + 1, pcs := Function.update sfS3.pcs 0 PC.building }

def sfS5 : SysState 2 ℕ :=
  { sfS4 with cacheData := some 7, lock := none, pcs := Function.update sfS4.pcs 0 (PC.done 7) }

def sfS6 : SysState 2 ℕ :=
  { sfS5 with lock := some 1, pcs := Function.update sfS5.pcs 1 PC.entered }

def sfS7 : SysState 2 ℕ :=
  { sfS6 with lock := none, pcs := Function.update sfS6.pcs 1 (PC.done 7) }

/-- Witness for C2: a complete two-caller burst reaches an all-done
state in which exactly one build was counted and both callers hold
the published result. -/
theorem singleFlight_contract_witness :
    Reachable 7 sfS7 ∧ sfS7.builds = 1 ∧ ∀ i : Fin 2, sfS7.pcs i = PC.done 7 := by
  have hreach : Reachable 7 sfS7 :=
    Relation.ReflTransGen.tail (Relation.ReflTransGen.tail (Relation.ReflTransGen.tail
      (Relation.ReflTransGen.tail (Relation.ReflTransGen.tail
        (Relation.ReflTransGen.tail (Relation.ReflTransGen.tail
          Relation.ReflTransGen.refl
          (SfStep.getMiss (sfInit 2 ℕ) 0 rfl rfl))
          (SfStep.getMiss sfS1 1 (by decide) rfl))
        (SfStep.acquire sfS2 0 (by decide) rfl))
      (SfStep.recheckMiss sfS3 0 (by decide) rfl))
      (SfStep.publish sfS4 0 (by decide)))
      (SfStep.acquire sfS5 1 (by decide) rfl))
      (SfStep.recheckHit sfS6 1 7 (by decide) rfl)
  have h := singleFlight_contract 7 sfS7 hreach
  exact ⟨hreach, h.2.2.2 (fun i => ⟨7, by fin_cases i <;> decide⟩) (by norm_num),
    fun i => by fin_cases i <;> decide⟩

/-- Two-caller burst in which both build attempts fail: both callers
miss, caller 0 acquires, builds and fails, caller 1 then acquires,
re-checks the still-empty cache, builds and fails as well. -/
def sfT5 : SysState 2 ℕ :=
  { sfS4 with lock := none, pcs := Function.update sfS4.pcs 0 PC.failed }

def sfT6 : SysState 2 ℕ :=
  { sfT5 with lock := some 1, pcs := Function.update sfT5.pcs 1 PC.entered }

def sfT7 : SysState 2 ℕ :=
  { sfT6 with builds := sfT6.builds + 1, pcs := Function.update sfT6.pcs 1 PC.building }

def sfT8 : SysState 2 ℕ :=
  { sfT7 with lock := none, pcs := Function.update sfT7.pcs 1 PC.failed }

/-- Counterexample for C2 as stated: two simultaneous cache-miss
callers run the burst to completion while both dashboard builds fail
(the buildDashboard error branch of handleAPI responds with the error
payload and releases the gate without publishing), so the completed
burst counts two build executions, not exactly one, and no caller
receives data. -/
theorem singleFlight_two_builds_cex :
    Reachable (7 : ℕ) sfT8 ∧ (∀ i : Fin 2, sfT8.pcs i = PC.failed) ∧
      sfT8.builds = 2 ∧ ¬ (sfT8.builds = 1) := by
  have hreach : Reachable 7 sfT8 :=
    Relation.ReflTransGen.tail (Relation.ReflTransGen.tail (Relation.ReflTransGen.tail
      (Relation.ReflTransGen.tail (Relation.ReflTransGen.tail
        (Relation.ReflTransGen.tail (Relation.ReflTransGen.tail
          (Relation.ReflTransGen.tail Relation.ReflTransGen.refl
            (SfStep.getMiss (sfInit 2 ℕ) 0 rfl rfl))
          (SfStep.getMiss sfS1 1 (by decide) rfl))
          (SfStep.acquire sfS2 0 (by decide) rfl))
        (SfStep.recheckMiss sfS3 0 (by decide) rfl))
      (SfStep.buildFail sfS4 0 (by decide)))
      (SfStep.acquire sfT5 1 (by decide) rfl))
      (SfStep.recheckMiss sfT6 1 (by decide) rfl))
      (SfStep.buildFail sfT7 1 (by decide))
  exact ⟨hreach, fun i => by fin_cases i <;> decide, by decide, by decide⟩

end Gasometer
